import Mathlib

/-!
# Xerus Engine: continuous collision detection (`Collision.cpp`)

A shallow embedding of `xr::AABB` and `xr::Circle` with their segment and sweep
tests, followed by theorems about them.

Conventions of the embedding.

* A `float` is an IEEE 754 binary32 value, `F32`: NaN, an infinity, or a finite
  rational.  Every arithmetic operation rounds its exact result to binary32
  (round to nearest, ties to even, gradual underflow, overflow to an infinity)
  and follows the IEEE rules for infinities and NaN; comparisons with NaN are
  false.
* `sqrt` is correctly rounded.  Every operation is rounded on its own: no
  fused multiply-add and no excess precision.  Integer literals such as `2` in
  `size.x / 2` convert to the same binary32 value.
* The sign of a zero is not modelled.  It is observable only through a
  division by zero, and the zero divisors of this program (`2 * a` with
  `a = dot(v, v)`, and `sqrt(dot(v, v))`) are sums of squares, hence `+0`.
* `xr::Hit` and its ordering are declared in `Collision.h`, which is not among
  the sources; they follow the specification.
-/

namespace xr

/-! ## Binary32 arithmetic -/

/-- An IEEE 754 binary32 value: NaN, minus infinity, a finite value, plus
infinity. -/
inductive F32 where
  | nan : F32
  | negInf : F32
  | fin (v : ℚ) : F32
  | posInf : F32
  deriving DecidableEq

namespace F32

/-- The power `2 ^ k` for an integer `k`. -/
def pow2 (k : Int) : ℚ :=
  if 0 ≤ k then ((2 ^ k.toNat : Nat) : ℚ) else 1 / ((2 ^ (-k).toNat : Nat) : ℚ)

/-- Halving `n` until it is below `2`, at most `fuel` times; the count. -/
def log2Aux : Nat → Nat → Nat
  | 0, _ => 0
  | fuel + 1, n => if n < 2 then 0 else log2Aux fuel (n / 2) + 1

/-- The natural number `k` with `2 ^ k ≤ n < 2 ^ (k + 1)`, for `n ≥ 1`. -/
def log2 (n : Nat) : Nat := log2Aux n n

/-- The integer `e` with `2 ^ e ≤ a < 2 ^ (e + 1)`, for a positive rational. -/
def ilog2 (a : ℚ) : Int :=
  let e0 : Int := (log2 a.num.natAbs : Int) - (log2 a.den : Int)
  if pow2 e0 ≤ a then e0 else e0 - 1

/-- Rounding of a non-negative rational to the nearest integer, ties to the even
one. -/
def roundHalfEven (x : ℚ) : Int :=
  let f : Int := Rat.floor x
  let r : ℚ := x - f
  if r < 1 / 2 then f
  else if 1 / 2 < r then f + 1
  else if f % 2 = 0 then f else f + 1

/-- Rounding of an exact result to binary32: 24 significant bits, exponents from
`-126` (below it the spacing stays `2 ^ (-149)`), round to nearest with ties to
even, and an infinity when the rounded magnitude reaches `2 ^ 128`. -/
def round (q : ℚ) : F32 :=
  if q = 0 then fin 0
  else
    let a : ℚ := |q|
    let e : Int := max (ilog2 a) (-126)
    let quantum : ℚ := pow2 (e - 23)
    let r : ℚ := (roundHalfEven (a / quantum) : ℚ) * quantum
    if pow2 128 ≤ r then (if 0 < q then posInf else negInf)
    else fin (if 0 < q then r else -r)

/-- Newton iteration towards the integer square root of `n`, from a guess not
below it. -/
def isqrtAux : Nat → Nat → Nat → Nat
  | 0, _, g => g
  | fuel + 1, n, g =>
    let g2 := (g + n / g) / 2
    if g2 < g then isqrtAux fuel n g2 else g

/-- The integer square root: the largest `r` with `r * r ≤ n`. -/
def isqrt (n : Nat) : Nat :=
  if n = 0 then 0 else isqrtAux n n (2 ^ (log2 n / 2 + 1))

/-- The correctly rounded binary32 square root of a positive rational. -/
def sqrtPos (q : ℚ) : ℚ :=
  let e : Int := ilog2 q / 2
  let quantum : ℚ := pow2 (e - 23)
  let t : ℚ := q / (quantum * quantum)
  let m0 : Nat := isqrt (Rat.floor t).toNat
  let h : ℚ := ((m0 : ℚ) + 1 / 2) * ((m0 : ℚ) + 1 / 2)
  let m : Nat := if t < h then m0 else if h < t then m0 + 1 else if m0 % 2 = 0 then m0 else m0 + 1
  (m : ℚ) * quantum

/-- Unary minus. -/
def neg : F32 → F32
  | nan => nan
  | negInf => posInf
  | fin a => fin (-a)
  | posInf => negInf

/-- Binary32 addition. -/
def add : F32 → F32 → F32
  | nan, _ => nan
  | _, nan => nan
  | fin a, fin b => round (a + b)
  | posInf, negInf => nan
  | negInf, posInf => nan
  | posInf, _ => posInf
  | _, posInf => posInf
  | negInf, _ => negInf
  | _, negInf => negInf

/-- Binary32 subtraction, `x + (-y)`. -/
def sub (x y : F32) : F32 := add x (neg y)

/-- The sign of a value that is not NaN: `-1`, `0` or `1`. -/
def sign : F32 → Int
  | nan => 0
  | negInf => -1
  | fin a => if 0 < a then 1 else if a < 0 then -1 else 0
  | posInf => 1

/-- Binary32 multiplication; an infinity times zero is NaN. -/
def mul : F32 → F32 → F32
  | nan, _ => nan
  | _, nan => nan
  | fin a, fin b => round (a * b)
  | x, y => if sign x * sign y = 0 then nan else if 0 < sign x * sign y then posInf else negInf

/-- Binary32 division.  A zero divisor counts as `+0`: `0/0` is NaN and `a/0` an
infinity of the sign of `a`. -/
def div : F32 → F32 → F32
  | nan, _ => nan
  | _, nan => nan
  | fin a, fin b =>
    if b = 0 then (if a = 0 then nan else if 0 < a then posInf else negInf)
    else round (a / b)
  | fin _, _ => fin 0
  | posInf, fin b => if 0 ≤ b then posInf else negInf
  | negInf, fin b => if 0 ≤ b then negInf else posInf
  | _, _ => nan

/-- Binary32 square root. -/
def sqrt : F32 → F32
  | nan => nan
  | negInf => nan
  | fin a => if a < 0 then nan else if a = 0 then fin 0 else fin (sqrtPos a)
  | posInf => posInf

/-- IEEE `<`: false whenever an operand is NaN. -/
def lt : F32 → F32 → Prop
  | negInf, fin _ => True
  | negInf, posInf => True
  | fin a, fin b => a < b
  | fin _, posInf => True
  | _, _ => False

/-- IEEE `<=`: false whenever an operand is NaN. -/
def le : F32 → F32 → Prop
  | negInf, negInf => True
  | negInf, fin _ => True
  | negInf, posInf => True
  | fin a, fin b => a ≤ b
  | fin _, posInf => True
  | posInf, posInf => True
  | _, _ => False

instance : LT F32 := ⟨lt⟩

instance : LE F32 := ⟨le⟩

instance decLt : (a b : F32) → Decidable (a < b)
  | nan, _ => isFalse (fun h => by cases h)
  | negInf, nan => isFalse (fun h => by cases h)
  | negInf, negInf => isFalse (fun h => by cases h)
  | negInf, fin _ => isTrue trivial
  | negInf, posInf => isTrue trivial
  | fin _, nan => isFalse (fun h => by cases h)
  | fin _, negInf => isFalse (fun h => by cases h)
  | fin a, fin b => inferInstanceAs (Decidable (a < b))
  | fin _, posInf => isTrue trivial
  | posInf, _ => isFalse (fun h => by cases h)

instance decLe : (a b : F32) → Decidable (a ≤ b)
  | nan, _ => isFalse (fun h => by cases h)
  | negInf, nan => isFalse (fun h => by cases h)
  | negInf, negInf => isTrue trivial
  | negInf, fin _ => isTrue trivial
  | negInf, posInf => isTrue trivial
  | fin _, nan => isFalse (fun h => by cases h)
  | fin _, negInf => isFalse (fun h => by cases h)
  | fin a, fin b => inferInstanceAs (Decidable (a ≤ b))
  | fin _, posInf => isTrue trivial
  | posInf, nan => isFalse (fun h => by cases h)
  | posInf, negInf => isFalse (fun h => by cases h)
  | posInf, fin _ => isFalse (fun h => by cases h)
  | posInf, posInf => isTrue trivial

instance : Zero F32 := ⟨fin 0⟩

instance : One F32 := ⟨fin 1⟩

instance : Neg F32 := ⟨neg⟩

instance : Add F32 := ⟨add⟩

instance : Sub F32 := ⟨sub⟩

instance : Mul F32 := ⟨mul⟩

instance : Div F32 := ⟨div⟩

/-- The value is finite. -/
def IsFinite (x : F32) : Prop := ∃ v : ℚ, x = fin v

/-- The rational value of a finite binary32 number (`0` for the others). -/
def toRat : F32 → ℚ
  | fin v => v
  | _ => 0

/-- The finite value is a binary32 number: rounding leaves it unchanged. -/
def IsBinary32 (v : ℚ) : Prop := round v = fin v

instance decIsBinary32 (v : ℚ) : Decidable (IsBinary32 v) :=
  inferInstanceAs (Decidable (round v = fin v))

end F32

/-- `std::max(a, b)`, which is `(a < b) ? b : a`. -/
def stdMax {α : Type} [LT α] [∀ a b : α, Decidable (a < b)] (a b : α) : α :=
  if a < b then b else a

/-- `std::min(a, b)`, which is `(b < a) ? b : a`. -/
def stdMin {α : Type} [LT α] [∀ a b : α, Decidable (a < b)] (a b : α) : α :=
  if b < a then b else a

/-! ## Vectors -/

/-- `glm::vec2`. -/
@[ext]
structure Vec2 where
  x : F32
  y : F32
  deriving DecidableEq

namespace Vec2

instance : Zero Vec2 := ⟨⟨0, 0⟩⟩

instance : Add Vec2 := ⟨fun u v => ⟨u.x + v.x, u.y + v.y⟩⟩

instance : Sub Vec2 := ⟨fun u v => ⟨u.x - v.x, u.y - v.y⟩⟩

/-- `t * v` for a scalar `t`. -/
def scale (t : F32) (v : Vec2) : Vec2 := ⟨t * v.x, t * v.y⟩

/-- `v * s` for a scalar `s`. -/
def scaleRight (v : Vec2) (s : F32) : Vec2 := ⟨v.x * s, v.y * s⟩

/-- `v + s` for a scalar `s` (added to both components). -/
def addScalar (v : Vec2) (s : F32) : Vec2 := ⟨v.x + s, v.y + s⟩

/-- `glm::dot`: `u.x * v.x + u.y * v.y`. -/
def dot (u v : Vec2) : F32 := u.x * v.x + u.y * v.y

/-- `glm::inversesqrt`: `1 / sqrt(x)`. -/
def inversesqrt (x : F32) : F32 := 1 / F32.sqrt x

/-- `glm::normalize`: `v * inversesqrt(dot(v, v))`. -/
def normalize (v : Vec2) : Vec2 := scaleRight v (inversesqrt (dot v v))

/-- Both components are finite. -/
def IsFinite (v : Vec2) : Prop := v.x.IsFinite ∧ v.y.IsFinite

end Vec2

/-! ## Shapes and hits -/

/-- `xr::AABB`: centre and full size. -/
structure AABB where
  center : Vec2
  size : Vec2

/-- `xr::Circle`: centre and radius. -/
structure Circle where
  center : Vec2
  radius : F32

/-- Modelled from the spec: the declaration of `xr::Hit` (in `Collision.h`) is
missing.  The spec gives the fields `hit`, `time`, `point`, `normal` in this
order, which is the order of the brace initialisers of `Collision.cpp`. -/
structure Hit where
  hit : Bool
  time : F32
  point : Vec2
  normal : Vec2
  deriving DecidableEq

namespace Hit

/-- Modelled from the spec: the ordering of `xr::Hit` (its `operator<`, in
`Collision.h`) is missing.  "A non-hit is strictly later than any hit, and among
two hits the one with smaller time wins." -/
def lt (h1 h2 : Hit) : Prop :=
  (h1.hit = true ∧ h2.hit = false) ∨ (h1.hit = true ∧ h2.hit = true ∧ h1.time < h2.time)

instance : LT Hit := ⟨lt⟩

instance decLt (h1 h2 : Hit) : Decidable (h1 < h2) :=
  inferInstanceAs (Decidable ((h1.hit = true ∧ h2.hit = false) ∨
    (h1.hit = true ∧ h2.hit = true ∧ h1.time < h2.time)))

/-- The brace initialiser `{ false, 1 }`: a non-hit with time `1`.  The members
left out (`point`, `normal`) are taken to be zero, as for an aggregate. -/
def miss : Hit := ⟨false, 1, 0, 0⟩

/-- The brace initialiser `{ true, 0, a }`: a hit at time `0` and point `a`.  The
normal, left out, is zero ("zero vector when not applicable" in the
specification). -/
def inside (a : Vec2) : Hit := ⟨true, 0, a, 0⟩

/-- The time of the hit is a finite fraction of `[0, 1]`. -/
def TimeInUnit (h : Hit) : Prop := ∃ t : ℚ, h.time = F32.fin t ∧ 0 ≤ t ∧ t ≤ 1

end Hit

namespace AABB

/-- The bound `left = center.x - size.x / 2`. -/
def left (box : AABB) : F32 := box.center.x - box.size.x / F32.fin 2

/-- The bound `right = center.x + size.x / 2`. -/
def right (box : AABB) : F32 := box.center.x + box.size.x / F32.fin 2

/-- The bound `top = center.y - size.y / 2`. -/
def top (box : AABB) : F32 := box.center.y - box.size.y / F32.fin 2

/-- The bound `bottom = center.y + size.y / 2`. -/
def bottom (box : AABB) : F32 := box.center.y + box.size.y / F32.fin 2

/-- `xr::AABB::contains`: strict point-in-rectangle test. -/
def contains (box : AABB) (p : Vec2) : Prop :=
  box.left < p.x ∧ p.x < box.right ∧ box.top < p.y ∧ p.y < box.bottom

instance decContains (box : AABB) (p : Vec2) : Decidable (box.contains p) :=
  inferInstanceAs (Decidable (box.left < p.x ∧ p.x < box.right ∧ box.top < p.y ∧
    p.y < box.bottom))

/-- One iteration of the loop of `AABB::intersects(a, b)` for the axis with
bounds `lower`, `upper`, start coordinate `a` and displacement `delta`:
`none` is the early `return { false, 1 }`, `some (entry, exit)` the two times
the iteration stores. -/
def slabAxis (lower upper a delta : F32) : Option (F32 × F32) :=
  if delta = 0 then
    if ¬ (lower < a ∧ a < upper) then none
    else some (F32.negInf, F32.posInf)
  else
    some (((if 0 < delta then lower else upper) - a) / delta,
          ((if 0 < delta then upper else lower) - a) / delta)

/-- The part of `AABB::intersects(a, b)` after the loop, from the stored entry
and exit times of the two axes. -/
def slabResult (a delta : Vec2) (entryX exitX entryY exitY : F32) : Hit :=
  let entryTime := stdMax entryX entryY
  let exitTime := stdMin exitX exitY
  if entryTime > exitTime ∨ entryTime > 1 ∨ entryTime < 0 ∨
      exitX < entryY ∨ exitY < entryX then
    Hit.miss
  else
    let time := entryTime
    let normal : Vec2 :=
      if entryX > entryY then ⟨if 0 < delta.x then -1 else 1, 0⟩
      else ⟨0, if 0 < delta.y then -1 else 1⟩
    ⟨true, time, a + Vec2.scale time delta, normal⟩

/-- `xr::AABB::intersects(glm::vec2 a, glm::vec2 b)`: segment against box. -/
def intersects (box : AABB) (a b : Vec2) : Hit :=
  if box.contains a then Hit.inside a
  else
    let lowerBounds : Vec2 :=
      ⟨box.center.x - box.size.x / F32.fin 2, box.center.y - box.size.y / F32.fin 2⟩
    let upperBounds : Vec2 :=
      ⟨box.center.x + box.size.x / F32.fin 2, box.center.y + box.size.y / F32.fin 2⟩
    let delta := b - a
    match slabAxis lowerBounds.x upperBounds.x a.x delta.x with
    | none => Hit.miss
    | some (entryX, exitX) =>
      match slabAxis lowerBounds.y upperBounds.y a.y delta.y with
      | none => Hit.miss
      | some (entryY, exitY) => slabResult a delta entryX exitX entryY exitY

/-- The function `slabResult` without the two cross-axis comparisons
`exitTimes.x < entryTimes.y || exitTimes.y < entryTimes.x` of its rejection
test; everything else is unchanged. -/
def slabResultNoCross (a delta : Vec2) (entryX exitX entryY exitY : F32) : Hit :=
  let entryTime := stdMax entryX entryY
  let exitTime := stdMin exitX exitY
  if entryTime > exitTime ∨ entryTime > 1 ∨ entryTime < 0 then
    Hit.miss
  else
    let time := entryTime
    let normal : Vec2 :=
      if entryX > entryY then ⟨if 0 < delta.x then -1 else 1, 0⟩
      else ⟨0, if 0 < delta.y then -1 else 1⟩
    ⟨true, time, a + Vec2.scale time delta, normal⟩

/-- The function `intersects` with `slabResultNoCross` in place of `slabResult`:
the segment test with the cross-axis comparisons removed. -/
def intersectsNoCross (box : AABB) (a b : Vec2) : Hit :=
  if box.contains a then Hit.inside a
  else
    let lowerBounds : Vec2 :=
      ⟨box.center.x - box.size.x / F32.fin 2, box.center.y - box.size.y / F32.fin 2⟩
    let upperBounds : Vec2 :=
      ⟨box.center.x + box.size.x / F32.fin 2, box.center.y + box.size.y / F32.fin 2⟩
    let delta := b - a
    match slabAxis lowerBounds.x upperBounds.x a.x delta.x with
    | none => Hit.miss
    | some (entryX, exitX) =>
      match slabAxis lowerBounds.y upperBounds.y a.y delta.y with
      | none => Hit.miss
      | some (entryY, exitY) => slabResultNoCross a delta entryX exitX entryY exitY

end AABB

namespace Circle

/-- The local `a` of `Circle::intersects`: `dot(lineDir, lineDir)` with
`lineDir = end - start`. -/
def quadA (start end_ : Vec2) : F32 := Vec2.dot (end_ - start) (end_ - start)

/-- The local `b` of `Circle::intersects`: `2.f * dot(direction, lineDir)` with
`direction = start - center`. -/
def quadB (c : Circle) (start end_ : Vec2) : F32 :=
  F32.fin 2 * Vec2.dot (start - c.center) (end_ - start)

/-- The local `c` of `Circle::intersects`:
`dot(direction, direction) - radius * radius`. -/
def quadC (c : Circle) (start : Vec2) : F32 :=
  Vec2.dot (start - c.center) (start - c.center) - c.radius * c.radius

/-- The local `discriminant` of `Circle::intersects` before the square root is
taken: `b*b - 4.f * a*c`. -/
def discriminant (c : Circle) (start end_ : Vec2) : F32 :=
  quadB c start end_ * quadB c start end_ - F32.fin 4 * quadA start end_ * quadC c start

/-- The local `t1` of `Circle::intersects`: `(-b - sqrt(discriminant)) / (2 * a)`. -/
def root1 (c : Circle) (start end_ : Vec2) : F32 :=
  (-quadB c start end_ - F32.sqrt (discriminant c start end_)) / (F32.fin 2 * quadA start end_)

/-- The local `t2` of `Circle::intersects`: `(-b + sqrt(discriminant)) / (2 * a)`. -/
def root2 (c : Circle) (start end_ : Vec2) : F32 :=
  (-quadB c start end_ + F32.sqrt (discriminant c start end_)) / (F32.fin 2 * quadA start end_)

/-- The hit `{ true, t, point, normalize(point - center) }` with
`point = start + t * delta` that `Circle::intersects` returns for a root `t`. -/
def hitAt (c : Circle) (start end_ : Vec2) (t : F32) : Hit :=
  let point := start + Vec2.scale t (end_ - start)
  ⟨true, t, point, Vec2.normalize (point - c.center)⟩

/-- `xr::Circle::intersects(glm::vec2 start, glm::vec2 end)`: segment against
circle. -/
def intersects (c : Circle) (start end_ : Vec2) : Hit :=
  if discriminant c start end_ ≥ 0 then
    let t1 := root1 c start end_
    let t2 := root2 c start end_
    if 0 ≤ t1 ∧ t1 ≤ 1 then hitAt c start end_ t1
    else if 0 ≤ t2 ∧ t2 ≤ 1 then hitAt c start end_ t2
    else Hit.miss
  else Hit.miss

/-- The squared distance, in exact rational arithmetic, between the values of
two finite points. -/
def distSqExact (p q : Vec2) : ℚ :=
  (p.x.toRat - q.x.toRat) ^ 2 + (p.y.toRat - q.y.toRat) ^ 2

/-- The condition of the first-touch property in exact rational arithmetic on
the values of the inputs: at the fraction `t` the centre of `circle` moved by
`t * delta` is within `c.radius + circle.radius` of the centre of `c`. -/
def touchesAt (c circle : Circle) (delta : Vec2) (t : ℚ) : Prop :=
  (circle.center.x.toRat + t * delta.x.toRat - c.center.x.toRat) ^ 2 +
    (circle.center.y.toRat + t * delta.y.toRat - c.center.y.toRat) ^ 2 ≤
  (c.radius.toRat + circle.radius.toRat) ^ 2

/-- `xr::Circle::sweep(const Circle& circle, glm::vec2 delta)`. -/
def sweep (c circle : Circle) (delta : Vec2) : Hit :=
  let padded : Circle := ⟨c.center, c.radius + circle.radius⟩
  padded.intersects circle.center (circle.center + delta)

end Circle

/-- `glm::vec4`, components `[0]` to `[3]`. -/
structure Vec4 where
  x : F32
  y : F32
  z : F32
  w : F32

namespace AABB

/-- `xr::AABB::getBounds`: left, right, top, bottom. -/
def getBounds (box : AABB) : Vec4 :=
  ⟨box.center.x - box.size.x / F32.fin 2, box.center.x + box.size.x / F32.fin 2,
   box.center.y - box.size.y / F32.fin 2, box.center.y + box.size.y / F32.fin 2⟩

/-- `xr::AABB::intersects(const AABB& box)`: static, inclusive overlap. -/
def intersectsBox (self box : AABB) : Prop :=
  self.getBounds.x ≤ box.getBounds.y ∧ self.getBounds.y ≥ box.getBounds.x ∧
  self.getBounds.z ≤ box.getBounds.w ∧ self.getBounds.w ≥ box.getBounds.z

instance decIntersectsBox (self box : AABB) : Decidable (self.intersectsBox box) :=
  inferInstanceAs (Decidable (self.getBounds.x ≤ box.getBounds.y ∧
    self.getBounds.y ≥ box.getBounds.x ∧ self.getBounds.z ≤ box.getBounds.w ∧
    self.getBounds.w ≥ box.getBounds.z))

/-- The box moved by `v`: same size, centre `center + v`. -/
def translate (box : AABB) (v : Vec2) : AABB := ⟨box.center + v, box.size⟩

/-- The padded box `{ center, size + box.size }` of `AABB::sweep(box, delta)`. -/
def paddedByBox (self box : AABB) : AABB := ⟨self.center, self.size + box.size⟩

/-- The condition of the no-tunnelling property in exact rational arithmetic on
the values of the inputs: at the fraction `t` the interiors of `self` and of
`box` translated by `t * delta` overlap,
`|box.center.x + t*delta.x - self.center.x| < (self.size.x + box.size.x)/2` and
the same on the y axis. -/
def interiorsOverlapAt (self box : AABB) (delta : Vec2) (t : ℚ) : Prop :=
  |box.center.x.toRat + t * delta.x.toRat - self.center.x.toRat| <
      (self.size.x.toRat + box.size.x.toRat) / 2 ∧
  |box.center.y.toRat + t * delta.y.toRat - self.center.y.toRat| <
      (self.size.y.toRat + box.size.y.toRat) / 2

/-- `xr::AABB::sweep(const AABB& box, glm::vec2 delta)`. -/
def sweep (self box : AABB) (delta : Vec2) : Hit :=
  let padded : AABB := ⟨self.center, self.size + box.size⟩
  padded.intersects box.center (box.center + delta)

/-- The box padded by the circle's diameter, `{ center, size + 2 * radius }`, of
`AABB::sweep(circle, delta)`. -/
def paddedBy (self : AABB) (circle : Circle) : AABB :=
  ⟨self.center, Vec2.addScalar self.size (F32.fin 2 * circle.radius)⟩

/-- The circle `padding` of `AABB::sweep(circle, delta)`: the moving circle's
radius round the corner `center + corner` of the box. -/
def cornerCircle (self : AABB) (circle : Circle) (corner : Vec2) : Circle :=
  ⟨self.center + corner, circle.radius⟩

/-- The corner of the box, relative to its centre, that `AABB::sweep(circle,
delta)` picks for an offset `p` beyond the half-extent on both axes: the tests
`p.x < -sx / 2` and `p.y < -sy / 2` choose the side. -/
def cornerNear (self : AABB) (p : Vec2) : Vec2 :=
  ⟨if p.x < -self.size.x / F32.fin 2 then -self.size.x / F32.fin 2
    else self.size.x / F32.fin 2,
   if p.y < -self.size.y / F32.fin 2 then -self.size.y / F32.fin 2
    else self.size.y / F32.fin 2⟩

/-- The value `std::min(hit, padding.intersects(circle.center, circle.center + delta))`
returned by a corner branch of `AABB::sweep(circle, delta)`. -/
def cornerResult (self : AABB) (circle : Circle) (delta : Vec2) (hit : Hit)
    (corner : Vec2) : Hit :=
  stdMin hit ((self.cornerCircle circle corner).intersects circle.center (circle.center + delta))

/-- `xr::AABB::sweep(const Circle& circle, glm::vec2 delta)`. -/
def sweepCircle (self : AABB) (circle : Circle) (delta : Vec2) : Hit :=
  let hit := (self.paddedBy circle).intersects circle.center (circle.center + delta)
  let p := hit.point - self.center
  let sx := self.size.x
  let sy := self.size.y
  let bottom : Hit :=
    if p.y > sy / F32.fin 2 then
      if p.x < -sx / F32.fin 2 then
        cornerResult self circle delta hit ⟨-sx / F32.fin 2, sy / F32.fin 2⟩
      else if p.x > sx / F32.fin 2 then
        cornerResult self circle delta hit ⟨sx / F32.fin 2, sy / F32.fin 2⟩
      else hit
    else hit
  if p.y < -sy / F32.fin 2 then
    if p.x < -sx / F32.fin 2 then
      cornerResult self circle delta hit ⟨-sx / F32.fin 2, -sy / F32.fin 2⟩
    else if p.x > sx / F32.fin 2 then
      cornerResult self circle delta hit ⟨sx / F32.fin 2, -sy / F32.fin 2⟩
    else bottom
  else bottom

end AABB

end xr
namespace xr

/-! ## Basic facts about binary32 comparisons and operations -/

namespace F32

theorem zero_def : (0 : F32) = fin 0 := rfl

theorem one_def : (1 : F32) = fin 1 := rfl

@[simp] theorem fin_lt_fin (a b : ℚ) : (fin a < fin b) ↔ a < b := Iff.rfl

@[simp] theorem fin_le_fin (a b : ℚ) : (fin a ≤ fin b) ↔ a ≤ b := Iff.rfl

@[simp] theorem negInf_lt_fin (b : ℚ) : (negInf < fin b) ↔ True := Iff.rfl

@[simp] theorem fin_lt_posInf (a : ℚ) : (fin a < posInf) ↔ True := Iff.rfl

@[simp] theorem negInf_lt_posInf : (negInf < posInf) ↔ True := Iff.rfl

@[simp] theorem not_posInf_lt (a : F32) : (posInf < a) ↔ False := by
  cases a <;> exact Iff.rfl

@[simp] theorem not_lt_negInf (a : F32) : (a < negInf) ↔ False := by
  cases a <;> exact Iff.rfl

@[simp] theorem not_nan_lt (a : F32) : (nan < a) ↔ False := by
  cases a <;> exact Iff.rfl

@[simp] theorem not_lt_nan (a : F32) : (a < nan) ↔ False := by
  cases a <;> exact Iff.rfl

@[simp] theorem not_nan_le (a : F32) : (nan ≤ a) ↔ False := by
  cases a <;> exact Iff.rfl

@[simp] theorem not_le_nan (a : F32) : (a ≤ nan) ↔ False := by
  cases a <;> exact Iff.rfl

@[simp] theorem not_fin_le_negInf (a : ℚ) : (fin a ≤ negInf) ↔ False := Iff.rfl

@[simp] theorem not_posInf_le_fin (a : ℚ) : (posInf ≤ fin a) ↔ False := Iff.rfl

@[simp] theorem not_posInf_le_negInf : (posInf ≤ negInf) ↔ False := Iff.rfl

@[simp] theorem negInf_le_fin (a : ℚ) : (negInf ≤ fin a) ↔ True := Iff.rfl

@[simp] theorem fin_le_posInf (a : ℚ) : (fin a ≤ posInf) ↔ True := Iff.rfl

@[simp] theorem negInf_le_negInf : (negInf ≤ negInf) ↔ True := Iff.rfl

@[simp] theorem posInf_le_posInf : (posInf ≤ posInf) ↔ True := Iff.rfl

@[simp] theorem negInf_le_posInf : (negInf ≤ posInf) ↔ True := Iff.rfl

/-- A true `<=` excludes the reverse `<`. -/
theorem not_lt_of_le {a b : F32} (h : a ≤ b) : ¬ (b < a) := by
  cases a <;> cases b <;> simp at h ⊢
  exact h

/-- The comparison `<` is asymmetric. -/
theorem lt_asymm {a b : F32} (h : a < b) : ¬ (b < a) := by
  cases a <;> cases b <;> simp at h ⊢
  exact le_of_lt h

/-- The comparison `<=` is transitive. -/
theorem trans_le {a b c : F32} (h1 : a ≤ b) (h2 : b ≤ c) : a ≤ c := by
  cases a <;> cases b <;> cases c <;> simp at h1 h2 ⊢
  exact le_trans h1 h2

/-- Of two values that are not NaN, one is `<` the other or the other is `<=`
the one. -/
theorem le_of_not_lt_of_ne_nan {a b : F32} (ha : a ≠ nan) (hb : b ≠ nan) (h : ¬ (a < b)) :
    b ≤ a := by
  cases a <;> cases b <;> simp at ha hb h ⊢
  exact h

theorem le_of_strict {a b : F32} (h : a < b) : a ≤ b := by
  cases a <;> cases b <;> simp at h ⊢
  exact le_of_lt h

theorem le_self {a : F32} (ha : a ≠ nan) : a ≤ a := by
  cases a <;> simp at ha ⊢

theorem ne_nan_of_le_left {a b : F32} (h : a ≤ b) : a ≠ nan := by
  rintro rfl; simp at h

theorem ne_nan_of_le_right {a b : F32} (h : a ≤ b) : b ≠ nan := by
  rintro rfl; simp at h

theorem ne_nan_of_lt_left {a b : F32} (h : a < b) : a ≠ nan := by
  rintro rfl; simp at h

theorem ne_nan_of_lt_right {a b : F32} (h : a < b) : b ≠ nan := by
  rintro rfl; simp at h

/-- A time that passes the tests `0 <= t` and `t <= 1` is a finite fraction. -/
theorem eq_fin_of_in_unit {t : F32} (h : 0 ≤ t ∧ t ≤ 1) :
    ∃ v : ℚ, t = fin v ∧ 0 ≤ v ∧ v ≤ 1 := by
  cases t with
  | nan => simp at h
  | negInf => simp [zero_def] at h
  | fin v => exact ⟨v, rfl, h.1, h.2⟩
  | posInf => simp [one_def] at h

/-- A time that fails the tests `t > 1` and `t < 0` is NaN or a finite
fraction. -/
theorem nan_or_fin_of_not_outside {t : F32} (h1 : ¬ (t > 1)) (h0 : ¬ (t < 0)) :
    t = nan ∨ ∃ v : ℚ, t = fin v ∧ 0 ≤ v ∧ v ≤ 1 := by
  cases t with
  | nan => exact Or.inl rfl
  | negInf => simp [zero_def] at h0
  | fin v =>
    simp only [gt_iff_lt, one_def, zero_def, fin_lt_fin, not_lt] at h1 h0
    exact Or.inr ⟨v, rfl, h0, h1⟩
  | posInf => simp [one_def] at h1

theorem round_zero : round 0 = fin 0 := by
  simp [round]

theorem round_ne_nan (q : ℚ) : round q ≠ nan := by
  unfold round
  simp only
  split_ifs <;> simp

/-- Subtracting a finite value from itself gives zero. -/
theorem sub_self_fin (v : ℚ) : fin v - fin v = 0 := by
  show add (fin v) (neg (fin v)) = fin 0
  simp [add, neg, round_zero]

theorem fin_add_ne_nan (a : ℚ) {x : F32} (hx : x ≠ nan) : fin a + x ≠ nan := by
  cases x with
  | nan => exact absurd rfl hx
  | negInf => show add (fin a) negInf ≠ nan; simp [add]
  | fin b => exact round_ne_nan _
  | posInf => show add (fin a) posInf ≠ nan; simp [add]

theorem fin_sub_ne_nan (a : ℚ) {x : F32} (hx : x ≠ nan) : fin a - x ≠ nan := by
  cases x with
  | nan => exact absurd rfl hx
  | negInf => show add (fin a) (neg negInf) ≠ nan; simp [add, neg]
  | fin b => exact round_ne_nan _
  | posInf => show add (fin a) (neg posInf) ≠ nan; simp [add, neg]

theorem sub_fin_ne_nan {x : F32} (hx : x ≠ nan) (a : ℚ) : x - fin a ≠ nan := by
  cases x with
  | nan => exact absurd rfl hx
  | negInf => show add negInf (neg (fin a)) ≠ nan; simp [add, neg]
  | fin b => exact round_ne_nan _
  | posInf => show add posInf (neg (fin a)) ≠ nan; simp [add, neg]

theorem div_fin_ne_nan {x : F32} (hx : x ≠ nan) {d : ℚ} (hd : d ≠ 0) : x / fin d ≠ nan := by
  cases x with
  | nan => exact absurd rfl hx
  | negInf => show div negInf (fin d) ≠ nan; simp only [div]; split_ifs <;> simp
  | fin b => show div (fin b) (fin d) ≠ nan; simp only [div, if_neg hd]; exact round_ne_nan _
  | posInf => show div posInf (fin d) ≠ nan; simp only [div]; split_ifs <;> simp

theorem fin_div_two_ne_nan (s : ℚ) : fin s / fin 2 ≠ nan :=
  div_fin_ne_nan (by simp) (by norm_num)

theorem stdMax_ne_nan {a b : F32} (ha : a ≠ nan) (hb : b ≠ nan) : stdMax a b ≠ nan := by
  unfold stdMax
  split_ifs <;> assumption

end F32

end xr
namespace xr

/-! ## Structure of `AABB::intersects(a, b)` -/

namespace AABB

theorem contains_iff (box : AABB) (p : Vec2) :
    box.contains p ↔ box.left < p.x ∧ p.x < box.right ∧ box.top < p.y ∧ p.y < box.bottom :=
  Iff.rfl

/-- The early return for a start point strictly inside the box. -/
theorem intersects_of_contains {box : AABB} {a : Vec2} (b : Vec2) (h : box.contains a) :
    box.intersects a b = Hit.inside a := by
  simp only [intersects, if_pos h]

/-- The degenerate branch of the loop when the start coordinate is not
strictly between the bounds. -/
theorem slabAxis_zero_outside {lower upper a : F32} (h : ¬ (lower < a ∧ a < upper)) :
    slabAxis lower upper a 0 = none := by
  unfold slabAxis
  rw [if_pos rfl, if_pos h]

/-- A stored entry time of `-INFINITY` or the early return are the only outcomes
of the degenerate branch. -/
theorem slabAxis_zero (lower upper a : F32) :
    slabAxis lower upper a 0 = none ∨
      slabAxis lower upper a 0 = some (F32.negInf, F32.posInf) := by
  unfold slabAxis
  rw [if_pos rfl]
  by_cases h : ¬ (lower < a ∧ a < upper)
  · rw [if_pos h]; exact Or.inl rfl
  · rw [if_neg h]; exact Or.inr rfl

/-- The general branch of the loop. -/
theorem slabAxis_ne_zero {delta : F32} (h : delta ≠ 0) (lower upper a : F32) :
    slabAxis lower upper a delta =
      some (((if 0 < delta then lower else upper) - a) / delta,
            ((if 0 < delta then upper else lower) - a) / delta) := by
  simp only [slabAxis, if_neg h]

/-- The result of the part after the loop is a hit exactly when none of the five
rejection comparisons holds. -/
theorem slabResult_hit_iff (a delta : Vec2) (eX xX eY xY : F32) :
    (slabResult a delta eX xX eY xY).hit = true ↔
      ¬ (stdMax eX eY > stdMin xX xY ∨ stdMax eX eY > 1 ∨ stdMax eX eY < 0 ∨
        xX < eY ∨ xY < eX) := by
  unfold slabResult
  simp only
  by_cases h : stdMax eX eY > stdMin xX xY ∨ stdMax eX eY > 1 ∨ stdMax eX eY < 0 ∨
      xX < eY ∨ xY < eX
  · rw [if_pos h]; simp [Hit.miss, h]
  · rw [if_neg h]; simp [h]

/-- The fields of a hit produced by the part after the loop. -/
theorem slabResult_of_hit {a delta : Vec2} {eX xX eY xY : F32}
    (h : (slabResult a delta eX xX eY xY).hit = true) :
    slabResult a delta eX xX eY xY =
      ⟨true, stdMax eX eY, a + Vec2.scale (stdMax eX eY) delta,
        if eX > eY then ⟨if 0 < delta.x then -1 else 1, 0⟩
        else ⟨0, if 0 < delta.y then -1 else 1⟩⟩ := by
  have hn := (slabResult_hit_iff a delta eX xX eY xY).1 h
  unfold slabResult
  simp only
  rw [if_neg hn]

/-- Every run of `intersects` from a start point that is not strictly inside
the box which ends in a hit went through both loop iterations and the part
after the loop. -/
theorem intersects_hit_outside {box : AABB} {a b : Vec2} (hout : ¬ box.contains a)
    (h : (box.intersects a b).hit = true) :
    ∃ eX xX eY xY : F32,
      slabAxis box.left box.right a.x (b - a).x = some (eX, xX) ∧
      slabAxis box.top box.bottom a.y (b - a).y = some (eY, xY) ∧
      box.intersects a b = slabResult a (b - a) eX xX eY xY := by
  simp only [intersects, if_neg hout] at h ⊢
  simp only [left, right, top, bottom]
  cases hX : slabAxis (box.center.x - box.size.x / F32.fin 2)
      (box.center.x + box.size.x / F32.fin 2) a.x (b - a).x with
  | none => rw [hX] at h; simp [Hit.miss] at h
  | some pX =>
    obtain ⟨eX, xX⟩ := pX
    rw [hX] at h
    simp only at h ⊢
    cases hY : slabAxis (box.center.y - box.size.y / F32.fin 2)
        (box.center.y + box.size.y / F32.fin 2) a.y (b - a).y with
    | none => rw [hY] at h; simp [Hit.miss] at h
    | some pY =>
      obtain ⟨eY, xY⟩ := pY
      exact ⟨eX, xX, eY, xY, rfl, rfl, rfl⟩

/-- On a hit of `intersects` the time is NaN or a finite fraction of `[0, 1]`. -/
theorem intersects_time_cases {box : AABB} {a b : Vec2}
    (h : (box.intersects a b).hit = true) :
    (box.intersects a b).time = F32.nan ∨ (box.intersects a b).TimeInUnit := by
  by_cases hin : box.contains a
  · rw [intersects_of_contains b hin]
    exact Or.inr ⟨0, rfl, le_refl _, zero_le_one⟩
  · obtain ⟨eX, xX, eY, xY, -, -, hres⟩ := intersects_hit_outside hin h
    rw [hres] at h ⊢
    have hn := (slabResult_hit_iff _ _ _ _ _ _).1 h
    rw [slabResult_of_hit h]
    simp only [not_or] at hn
    exact F32.nan_or_fin_of_not_outside hn.2.1 hn.2.2.1

end AABB

end xr
namespace xr

namespace F32

/-- Two values that are not NaN and not ordered either way are equal. -/
theorem eq_of_not_lt_of_not_gt {a b : F32} (ha : a ≠ nan) (hb : b ≠ nan)
    (h1 : ¬ (a < b)) (h2 : ¬ (b < a)) : a = b := by
  cases a <;> cases b <;> simp at ha hb h1 h2 ⊢
  exact le_antisymm h2 h1

/-- A value that is not NaN and not zero is positive or negative. -/
theorem pos_or_neg_of_ne_zero {d : F32} (hn : d ≠ nan) (h0 : d ≠ 0) : 0 < d ∨ d < 0 := by
  cases d with
  | nan => exact absurd rfl hn
  | negInf => right; simp [zero_def]
  | fin v =>
    have hv : v ≠ 0 := fun h => h0 (by rw [h]; rfl)
    rcases lt_or_gt_of_ne hv with h | h
    · right; simpa [zero_def] using h
    · left; simpa [zero_def] using h
  | posInf => left; simp [zero_def]

theorem div_nan (x : F32) : x / nan = nan := by
  cases x <;> rfl

theorem nan_div (x : F32) : nan / x = nan := by
  cases x <;> rfl

end F32

namespace AABB

/-- The bounds of a box with finite centre and a size without NaN are not
NaN. -/
theorem bounds_ne_nan {box : AABB} (hc : box.center.IsFinite)
    (hs : box.size.x ≠ F32.nan ∧ box.size.y ≠ F32.nan) :
    box.left ≠ F32.nan ∧ box.right ≠ F32.nan ∧ box.top ≠ F32.nan ∧ box.bottom ≠ F32.nan := by
  obtain ⟨⟨cx, hcx⟩, ⟨cy, hcy⟩⟩ := hc
  have h2 : (2 : ℚ) ≠ 0 := by norm_num
  simp only [left, right, top, bottom, hcx, hcy]
  exact ⟨F32.fin_sub_ne_nan _ (F32.div_fin_ne_nan hs.1 h2),
    F32.fin_add_ne_nan _ (F32.div_fin_ne_nan hs.1 h2),
    F32.fin_sub_ne_nan _ (F32.div_fin_ne_nan hs.2 h2),
    F32.fin_add_ne_nan _ (F32.div_fin_ne_nan hs.2 h2)⟩

/-- With bounds that are not NaN and finite start coordinate and displacement
the loop stores no NaN. -/
theorem slabAxis_ne_nan {lower upper a delta e x : F32} (hl : lower ≠ F32.nan)
    (hu : upper ≠ F32.nan) (ha : a.IsFinite) (hd : delta.IsFinite)
    (h : slabAxis lower upper a delta = some (e, x)) : e ≠ F32.nan ∧ x ≠ F32.nan := by
  obtain ⟨av, rfl⟩ := ha
  obtain ⟨dv, rfl⟩ := hd
  by_cases h0 : F32.fin dv = 0
  · rw [h0] at h
    rcases slabAxis_zero lower upper (F32.fin av) with h1 | h1
    · rw [h1] at h; cases h
    · rw [h1] at h
      simp only [Option.some.injEq, Prod.mk.injEq] at h
      rw [← h.1, ← h.2]
      exact ⟨by simp, by simp⟩
  · rw [slabAxis_ne_zero h0] at h
    simp only [Option.some.injEq, Prod.mk.injEq] at h
    have hdv : dv ≠ 0 := fun hz => h0 (by rw [hz]; rfl)
    rw [← h.1, ← h.2]
    constructor
    · apply F32.div_fin_ne_nan _ hdv
      apply F32.sub_fin_ne_nan
      split_ifs <;> assumption
    · apply F32.div_fin_ne_nan _ hdv
      apply F32.sub_fin_ne_nan
      split_ifs <;> assumption

/-- In the general branch, a stored entry time that is not NaN comes from a
displacement that is not NaN. -/
theorem slabAxis_delta_ne_nan {lower upper a delta e x : F32}
    (h : slabAxis lower upper a delta = some (e, x)) (he : e ≠ F32.nan) : delta ≠ F32.nan := by
  intro hd
  subst hd
  rw [slabAxis_ne_zero (by decide)] at h
  simp only [Option.some.injEq, Prod.mk.injEq] at h
  exact he (by rw [← h.1, F32.div_nan])

/-- A stored entry time other than `-INFINITY` comes from a non-zero
displacement. -/
theorem slabAxis_delta_ne_zero {lower upper a delta e x : F32}
    (h : slabAxis lower upper a delta = some (e, x)) (he : e ≠ F32.negInf) : delta ≠ 0 := by
  intro hd
  subst hd
  rcases slabAxis_zero lower upper a with h1 | h1
  · rw [h1] at h; cases h
  · rw [h1] at h
    simp only [Option.some.injEq, Prod.mk.injEq] at h
    exact he h.1.symm

/-- When the comparison `max(entry) <= min(exit)` holds, no exit time is less
than an entry time. -/
theorem cross_false_of_le {eX xX eY xY : F32} (h : stdMax eX eY ≤ stdMin xX xY) :
    ¬ (xX < eY) ∧ ¬ (xY < eX) := by
  have hmax := F32.ne_nan_of_le_left h
  have hmin := F32.ne_nan_of_le_right h
  constructor
  · intro hc
    have h1 : eY ≤ stdMax eX eY := by
      unfold stdMax at hmax ⊢
      by_cases hlt : eX < eY
      · rw [if_pos hlt]; exact F32.le_self (F32.ne_nan_of_lt_right hc)
      · rw [if_neg hlt] at hmax ⊢
        exact F32.le_of_not_lt_of_ne_nan hmax (F32.ne_nan_of_lt_right hc) hlt
    have h2 : stdMin xX xY ≤ xX := by
      unfold stdMin
      by_cases hlt : xY < xX
      · rw [if_pos hlt]; exact F32.le_of_strict hlt
      · rw [if_neg hlt]; exact F32.le_self (F32.ne_nan_of_lt_left hc)
    exact F32.not_lt_of_le (F32.trans_le (F32.trans_le h1 h) h2) hc
  · intro hc
    have h1 : eX ≤ stdMax eX eY := by
      unfold stdMax
      by_cases hlt : eX < eY
      · rw [if_pos hlt]; exact F32.le_of_strict hlt
      · rw [if_neg hlt]; exact F32.le_self (F32.ne_nan_of_lt_right hc)
    have h2 : stdMin xX xY ≤ xY := by
      unfold stdMin at hmin ⊢
      by_cases hlt : xY < xX
      · rw [if_pos hlt]; exact F32.le_self (F32.ne_nan_of_lt_left hc)
      · rw [if_neg hlt] at hmin ⊢
        exact F32.le_of_not_lt_of_ne_nan (F32.ne_nan_of_lt_left hc) hmin hlt
    exact F32.not_lt_of_le (F32.trans_le (F32.trans_le h1 h) h2) hc

/-- With a degenerate axis, whose stored times are `-INFINITY` and `INFINITY`,
the part after the loop does not depend on the cross-axis comparisons. -/
theorem slabResultNoCross_of_degenerate (a delta : Vec2) (eX xX eY xY : F32)
    (h : (eX = F32.negInf ∧ xX = F32.posInf) ∨ (eY = F32.negInf ∧ xY = F32.posInf)) :
    slabResultNoCross a delta eX xX eY xY = slabResult a delta eX xX eY xY := by
  have hc : ¬ (xX < eY ∨ xY < eX) := by
    rcases h with ⟨h1, h2⟩ | ⟨h1, h2⟩
    · rw [h1, h2]; simp
    · rw [h1, h2]; simp
  unfold slabResultNoCross slabResult
  simp only
  by_cases h3 : stdMax eX eY > stdMin xX xY ∨ stdMax eX eY > 1 ∨ stdMax eX eY < 0
  · have h5 : stdMax eX eY > stdMin xX xY ∨ stdMax eX eY > 1 ∨ stdMax eX eY < 0 ∨
        xX < eY ∨ xY < eX := by
      rcases h3 with h | h | h
      · exact Or.inl h
      · exact Or.inr (Or.inl h)
      · exact Or.inr (Or.inr (Or.inl h))
    rw [if_pos h3, if_pos h5]
  · have h5 : ¬ (stdMax eX eY > stdMin xX xY ∨ stdMax eX eY > 1 ∨ stdMax eX eY < 0 ∨
        xX < eY ∨ xY < eX) := by
      rintro (h | h | h | h)
      · exact h3 (Or.inl h)
      · exact h3 (Or.inr (Or.inl h))
      · exact h3 (Or.inr (Or.inr h))
      · exact hc h
    rw [if_neg h3, if_neg h5]

/-- For a segment with zero displacement on an axis, removing the cross-axis
comparisons does not change the result of the segment test. -/
theorem intersectsNoCross_of_degenerate (box : AABB) (a b : Vec2)
    (h : (b - a).x = 0 ∨ (b - a).y = 0) :
    box.intersectsNoCross a b = box.intersects a b := by
  unfold intersectsNoCross intersects
  by_cases hin : box.contains a
  · rw [if_pos hin, if_pos hin]
  · rw [if_neg hin, if_neg hin]
    simp only
    cases hX : slabAxis (box.center.x - box.size.x / F32.fin 2)
        (box.center.x + box.size.x / F32.fin 2) a.x (b - a).x with
    | none => rfl
    | some pX =>
      obtain ⟨eX, xX⟩ := pX
      cases hY : slabAxis (box.center.y - box.size.y / F32.fin 2)
          (box.center.y + box.size.y / F32.fin 2) a.y (b - a).y with
      | none => rfl
      | some pY =>
        obtain ⟨eY, xY⟩ := pY
        simp only
        apply slabResultNoCross_of_degenerate
        rcases h with h | h
        · left
          rw [h] at hX
          rcases slabAxis_zero (box.center.x - box.size.x / F32.fin 2)
            (box.center.x + box.size.x / F32.fin 2) a.x with h1 | h1
          · rw [h1] at hX; cases hX
          · rw [h1] at hX
            simp only [Option.some.injEq, Prod.mk.injEq] at hX
            exact ⟨hX.1.symm, hX.2.symm⟩
        · right
          rw [h] at hY
          rcases slabAxis_zero (box.center.y - box.size.y / F32.fin 2)
            (box.center.y + box.size.y / F32.fin 2) a.y with h1 | h1
          · rw [h1] at hY; cases hY
          · rw [h1] at hY
            simp only [Option.some.injEq, Prod.mk.injEq] at hY
            exact ⟨hY.1.symm, hY.2.symm⟩

/-- A segment with zero computed displacement on the x axis whose start is not
strictly between `left` and `right` is a miss. -/
theorem intersects_axis_miss_x {box : AABB} {a b : Vec2} (hd : (b - a).x = 0)
    (hrange : ¬ (box.left < a.x ∧ a.x < box.right)) : (box.intersects a b).hit = false := by
  have hnc : ¬ box.contains a := fun hc => hrange ⟨hc.1, hc.2.1⟩
  have hX : slabAxis (box.center.x - box.size.x / F32.fin 2)
      (box.center.x + box.size.x / F32.fin 2) a.x (b - a).x = none := by
    rw [hd]
    exact slabAxis_zero_outside hrange
  simp only [intersects, if_neg hnc, hX]
  rfl

/-- A segment with zero computed displacement on the y axis whose start is not
strictly between `top` and `bottom` is a miss. -/
theorem intersects_axis_miss_y {box : AABB} {a b : Vec2} (hd : (b - a).y = 0)
    (hrange : ¬ (box.top < a.y ∧ a.y < box.bottom)) : (box.intersects a b).hit = false := by
  have hnc : ¬ box.contains a := fun hc => hrange ⟨hc.2.2.1, hc.2.2.2⟩
  have hY : slabAxis (box.center.y - box.size.y / F32.fin 2)
      (box.center.y + box.size.y / F32.fin 2) a.y (b - a).y = none := by
    rw [hd]
    exact slabAxis_zero_outside hrange
  simp only [intersects, if_neg hnc, hY]
  cases slabAxis (box.center.x - box.size.x / F32.fin 2)
    (box.center.x + box.size.x / F32.fin 2) a.x (b - a).x <;> rfl

/-- On a hit of `intersects` with a finite box centre, a size without NaN, a
finite start point and a finite computed displacement `b - a`, the time is a
finite fraction of `[0, 1]`. -/
theorem intersects_time_of_finite {box : AABB} {a b : Vec2} (hc : box.center.IsFinite)
    (hs : box.size.x ≠ F32.nan ∧ box.size.y ≠ F32.nan) (ha : a.IsFinite)
    (hd : (b - a).IsFinite) (h : (box.intersects a b).hit = true) :
    (box.intersects a b).TimeInUnit := by
  rcases intersects_time_cases h with hnan | hfin
  · exfalso
    by_cases hin : box.contains a
    · rw [intersects_of_contains b hin] at hnan
      exact absurd hnan (by simp [Hit.inside, F32.zero_def])
    · obtain ⟨eX, xX, eY, xY, hX, hY, hres⟩ := intersects_hit_outside hin h
      obtain ⟨hl, hr, ht, hb⟩ := bounds_ne_nan hc hs
      have hnX := (slabAxis_ne_nan hl hr ha.1 hd.1 hX).1
      have hnY := (slabAxis_ne_nan ht hb ha.2 hd.2 hY).1
      rw [hres] at h hnan
      rw [slabResult_of_hit h] at hnan
      exact F32.stdMax_ne_nan hnX hnY hnan
  · exact hfin

end AABB

end xr
namespace xr

/-! ## Structure of `Circle::intersects` -/

namespace Circle

/-- The three ways `Circle::intersects` returns: at the first root, at the
second root, or the final `{ false, 1 }`. -/
theorem circle_intersects_cases (c : Circle) (start end_ : Vec2) :
    (discriminant c start end_ ≥ 0 ∧ (0 ≤ root1 c start end_ ∧ root1 c start end_ ≤ 1) ∧
      c.intersects start end_ = hitAt c start end_ (root1 c start end_)) ∨
    (discriminant c start end_ ≥ 0 ∧ ¬ (0 ≤ root1 c start end_ ∧ root1 c start end_ ≤ 1) ∧
      (0 ≤ root2 c start end_ ∧ root2 c start end_ ≤ 1) ∧
      c.intersects start end_ = hitAt c start end_ (root2 c start end_)) ∨
    ((¬ discriminant c start end_ ≥ 0 ∨
        (¬ (0 ≤ root1 c start end_ ∧ root1 c start end_ ≤ 1) ∧
          ¬ (0 ≤ root2 c start end_ ∧ root2 c start end_ ≤ 1))) ∧
      c.intersects start end_ = Hit.miss) := by
  unfold intersects
  by_cases hd : discriminant c start end_ ≥ 0
  · rw [if_pos hd]
    simp only
    by_cases h1 : 0 ≤ root1 c start end_ ∧ root1 c start end_ ≤ 1
    · rw [if_pos h1]
      exact Or.inl ⟨hd, h1, rfl⟩
    · rw [if_neg h1]
      by_cases h2 : 0 ≤ root2 c start end_ ∧ root2 c start end_ ≤ 1
      · rw [if_pos h2]
        exact Or.inr (Or.inl ⟨hd, h1, h2, rfl⟩)
      · rw [if_neg h2]
        exact Or.inr (Or.inr ⟨Or.inr ⟨h1, h2⟩, rfl⟩)
  · rw [if_neg hd]
    exact Or.inr (Or.inr ⟨Or.inl hd, rfl⟩)

/-- On a hit of `Circle::intersects` the time is a finite fraction of `[0, 1]`. -/
theorem circle_intersects_time {c : Circle} {start end_ : Vec2}
    (h : (c.intersects start end_).hit = true) :
    (c.intersects start end_).TimeInUnit := by
  rcases circle_intersects_cases c start end_ with ⟨-, h1, he⟩ | ⟨-, -, h2, he⟩ | ⟨-, he⟩
  · rw [he]; exact F32.eq_fin_of_in_unit h1
  · rw [he]; exact F32.eq_fin_of_in_unit h2
  · rw [he] at h; simp [Hit.miss] at h

end Circle

/-! ## Structure of `AABB::sweep(circle, delta)` -/

namespace AABB

/-- The value `std::min(hit, cornerHit)` is the padded-box hit unless the
corner-circle hit is strictly before it in the ordering of hits. -/
theorem cornerResult_cases (self : AABB) (circle : Circle) (delta : Vec2) (hit : Hit)
    (corner : Vec2) :
    (¬ ((self.cornerCircle circle corner).intersects circle.center (circle.center + delta) < hit) ∧
      cornerResult self circle delta hit corner = hit) ∨
    ((self.cornerCircle circle corner).intersects circle.center (circle.center + delta) < hit ∧
      cornerResult self circle delta hit corner =
        (self.cornerCircle circle corner).intersects circle.center (circle.center + delta)) := by
  unfold cornerResult stdMin
  by_cases h : (self.cornerCircle circle corner).intersects circle.center
      (circle.center + delta) < hit
  · rw [if_pos h]; exact Or.inr ⟨h, rfl⟩
  · rw [if_neg h]; exact Or.inl ⟨h, rfl⟩

/-- The function `sweepCircle` returns the padded-box hit or the value of one of
the four corner branches. -/
theorem sweepCircle_cases (self : AABB) (circle : Circle) (delta : Vec2) :
    self.sweepCircle circle delta =
        (self.paddedBy circle).intersects circle.center (circle.center + delta) ∨
      ∃ corner : Vec2,
        (corner.x = -self.size.x / F32.fin 2 ∨ corner.x = self.size.x / F32.fin 2) ∧
        (corner.y = -self.size.y / F32.fin 2 ∨ corner.y = self.size.y / F32.fin 2) ∧
        self.sweepCircle circle delta = cornerResult self circle delta
          ((self.paddedBy circle).intersects circle.center (circle.center + delta)) corner := by
  unfold sweepCircle
  simp only
  have hc : ∀ corner : Vec2,
      (corner.x = -self.size.x / F32.fin 2 ∨ corner.x = self.size.x / F32.fin 2) →
      (corner.y = -self.size.y / F32.fin 2 ∨ corner.y = self.size.y / F32.fin 2) →
      (cornerResult self circle delta
          ((self.paddedBy circle).intersects circle.center (circle.center + delta)) corner =
        (self.paddedBy circle).intersects circle.center (circle.center + delta) ∨
      ∃ corner2 : Vec2,
        (corner2.x = -self.size.x / F32.fin 2 ∨ corner2.x = self.size.x / F32.fin 2) ∧
        (corner2.y = -self.size.y / F32.fin 2 ∨ corner2.y = self.size.y / F32.fin 2) ∧
        cornerResult self circle delta
          ((self.paddedBy circle).intersects circle.center (circle.center + delta)) corner =
        cornerResult self circle delta
          ((self.paddedBy circle).intersects circle.center (circle.center + delta)) corner2) :=
    fun corner h1 h2 => Or.inr ⟨corner, h1, h2, rfl⟩
  split_ifs
  all_goals first
    | exact Or.inl rfl
    | exact hc _ (Or.inl rfl) (Or.inl rfl)
    | exact hc _ (Or.inr rfl) (Or.inl rfl)
    | exact hc _ (Or.inl rfl) (Or.inr rfl)
    | exact hc _ (Or.inr rfl) (Or.inr rfl)

/-- Beyond the half-extent on both axes `sweepCircle` takes the corner branch of
the corner `cornerNear p`. -/
theorem sweepCircle_of_corner_region (self : AABB) (circle : Circle) (delta : Vec2)
    (hx : ((self.paddedBy circle).intersects circle.center (circle.center + delta)).point.x
          - self.center.x < -self.size.x / F32.fin 2 ∨
        ((self.paddedBy circle).intersects circle.center (circle.center + delta)).point.x
          - self.center.x > self.size.x / F32.fin 2)
    (hy : ((self.paddedBy circle).intersects circle.center (circle.center + delta)).point.y
          - self.center.y < -self.size.y / F32.fin 2 ∨
        ((self.paddedBy circle).intersects circle.center (circle.center + delta)).point.y
          - self.center.y > self.size.y / F32.fin 2) :
    self.sweepCircle circle delta = cornerResult self circle delta
      ((self.paddedBy circle).intersects circle.center (circle.center + delta))
      (self.cornerNear
        (((self.paddedBy circle).intersects circle.center (circle.center + delta)).point
          - self.center)) := by
  have hpx : ∀ u v : Vec2, (u - v).x = u.x - v.x := fun _ _ => rfl
  have hpy : ∀ u v : Vec2, (u - v).y = u.y - v.y := fun _ _ => rfl
  unfold sweepCircle cornerNear
  simp only [hpx, hpy]
  by_cases hT : ((self.paddedBy circle).intersects circle.center (circle.center + delta)).point.y
      - self.center.y < -self.size.y / F32.fin 2
  · by_cases hL : ((self.paddedBy circle).intersects circle.center
        (circle.center + delta)).point.x - self.center.x < -self.size.x / F32.fin 2
    · simp only [if_pos hT, if_pos hL]
    · have hR := hx.resolve_left hL
      simp only [if_pos hT, if_neg hL, if_pos hR]
  · have hB := hy.resolve_left hT
    by_cases hL : ((self.paddedBy circle).intersects circle.center
        (circle.center + delta)).point.x - self.center.x < -self.size.x / F32.fin 2
    · simp only [if_neg hT, if_pos hB, if_pos hL]
    · have hR := hx.resolve_left hL
      simp only [if_neg hT, if_pos hB, if_neg hL, if_pos hR]

end AABB

end xr
namespace xr

namespace AABB

/-- On a hit of `sweepCircle` the time is NaN or a finite fraction of `[0, 1]`. -/
theorem sweepCircle_time_cases {self : AABB} {circle : Circle} {delta : Vec2}
    (h : (self.sweepCircle circle delta).hit = true) :
    (self.sweepCircle circle delta).time = F32.nan ∨ (self.sweepCircle circle delta).TimeInUnit := by
  rcases sweepCircle_cases self circle delta with he | ⟨corner, -, -, he⟩
  · rw [he] at h ⊢
    exact intersects_time_cases h
  · rcases cornerResult_cases self circle delta
      ((self.paddedBy circle).intersects circle.center (circle.center + delta)) corner with
      ⟨-, hc⟩ | ⟨-, hc⟩
    · rw [he, hc] at h ⊢
      exact intersects_time_cases h
    · rw [he, hc] at h ⊢
      exact Or.inr (Circle.circle_intersects_time h)

/-- On a hit of `sweepCircle` with finite box, radius and start point and a
finite computed displacement, the time is a finite fraction of `[0, 1]`. -/
theorem sweepCircle_time_of_finite {self : AABB} {circle : Circle} {delta : Vec2}
    (hc : self.center.IsFinite) (hs : self.size.IsFinite) (hr : circle.radius.IsFinite)
    (ha : circle.center.IsFinite) (hd : ((circle.center + delta) - circle.center).IsFinite)
    (h : (self.sweepCircle circle delta).hit = true) :
    (self.sweepCircle circle delta).TimeInUnit := by
  have hsize : (self.paddedBy circle).size.x ≠ F32.nan ∧
      (self.paddedBy circle).size.y ≠ F32.nan := by
    obtain ⟨⟨sx, hsx⟩, ⟨sy, hsy⟩⟩ := hs
    obtain ⟨r, hr⟩ := hr
    have hm : F32.fin 2 * circle.radius ≠ F32.nan := by
      rw [hr]; exact F32.round_ne_nan _
    simp only [paddedBy, Vec2.addScalar, hsx, hsy]
    exact ⟨F32.fin_add_ne_nan _ hm, F32.fin_add_ne_nan _ hm⟩
  rcases sweepCircle_cases self circle delta with he | ⟨corner, -, -, he⟩
  · rw [he] at h ⊢
    exact intersects_time_of_finite hc hsize ha hd h
  · rcases cornerResult_cases self circle delta
      ((self.paddedBy circle).intersects circle.center (circle.center + delta)) corner with
      ⟨-, hcr⟩ | ⟨-, hcr⟩
    · rw [he, hcr] at h ⊢
      exact intersects_time_of_finite hc hsize ha hd h
    · rw [he, hcr] at h ⊢
      exact Circle.circle_intersects_time h

/-- On a hit of `sweep` with finite boxes and a finite computed displacement,
the time is a finite fraction of `[0, 1]`. -/
theorem sweep_time_of_finite {self box : AABB} {delta : Vec2}
    (hc : self.center.IsFinite) (hs : self.size.IsFinite) (hs2 : box.size.IsFinite)
    (ha : box.center.IsFinite) (hd : ((box.center + delta) - box.center).IsFinite)
    (h : (self.sweep box delta).hit = true) :
    (self.sweep box delta).TimeInUnit := by
  have hsize : (self.paddedByBox box).size.x ≠ F32.nan ∧
      (self.paddedByBox box).size.y ≠ F32.nan := by
    obtain ⟨⟨sx, hsx⟩, ⟨sy, hsy⟩⟩ := hs
    obtain ⟨⟨tx, htx⟩, ⟨ty, hty⟩⟩ := hs2
    have hx : (self.size + box.size).x = self.size.x + box.size.x := rfl
    have hy : (self.size + box.size).y = self.size.y + box.size.y := rfl
    simp only [paddedByBox, hx, hy, hsx, hsy, htx, hty]
    exact ⟨F32.round_ne_nan _, F32.round_ne_nan _⟩
  exact @intersects_time_of_finite (self.paddedByBox box) box.center (box.center + delta)
    hc hsize ha hd h

end AABB

end xr
namespace xr

open F32

/-! ## Claims about `AABB::intersects(a, b)` -/

namespace AABB

/-- C4: immediate-overlap priority.  When `a` is strictly inside the box
(`left < a.x < right` and `top < a.y < bottom`, the bounds as `AABB::contains`
computes them), `intersects(a, b)` is the hit with time `0`, point `a` and zero
normal, whatever `b` is. -/
theorem intersects_start_inside (box : AABB) (a b : Vec2)
    (hx : box.left < a.x ∧ a.x < box.right) (hy : box.top < a.y ∧ a.y < box.bottom) :
    (box.intersects a b).hit = true ∧ (box.intersects a b).time = F32.fin 0 ∧
      (box.intersects a b).point = a ∧ (box.intersects a b).normal = 0 := by
  rw [intersects_of_contains b ⟨hx.1, hx.2, hy.1, hy.2⟩]
  exact ⟨rfl, rfl, rfl, rfl⟩

/-- C4 (witness): box `(0,0)` of size `(2,2)`, start `(1/2,-1/4)` strictly
inside, end `(5,3)` outside. -/
theorem intersects_start_inside_witness :
    ((AABB.mk ⟨0, 0⟩ ⟨fin 2, fin 2⟩).left < fin (1 / 2) ∧
      fin (1 / 2) < (AABB.mk ⟨0, 0⟩ ⟨fin 2, fin 2⟩).right) ∧
    ((AABB.mk ⟨0, 0⟩ ⟨fin 2, fin 2⟩).intersects ⟨fin (1 / 2), fin (-1 / 4)⟩
        ⟨fin 5, fin 3⟩).hit = true ∧
    ((AABB.mk ⟨0, 0⟩ ⟨fin 2, fin 2⟩).intersects ⟨fin (1 / 2), fin (-1 / 4)⟩
        ⟨fin 5, fin 3⟩).time = F32.fin 0 ∧
    ((AABB.mk ⟨0, 0⟩ ⟨fin 2, fin 2⟩).intersects ⟨fin (1 / 2), fin (-1 / 4)⟩
        ⟨fin 5, fin 3⟩).point = ⟨fin (1 / 2), fin (-1 / 4)⟩ ∧
    ((AABB.mk ⟨0, 0⟩ ⟨fin 2, fin 2⟩).intersects ⟨fin (1 / 2), fin (-1 / 4)⟩
        ⟨fin 5, fin 3⟩).normal = 0 :=
  ⟨by decide!,
    intersects_start_inside (AABB.mk ⟨0, 0⟩ ⟨fin 2, fin 2⟩) ⟨fin (1 / 2), fin (-1 / 4)⟩
      ⟨fin 5, fin 3⟩ (by decide!) (by decide!)⟩

/-- C8: axis-parallel miss.  A horizontal segment (`b.y = a.y`, a finite value)
whose height is not strictly inside the vertical slab (`a.y <= top` or
`bottom <= a.y`) is a miss for every `a.x`, `b.x`; symmetrically for a vertical
segment whose `a.x` is not strictly between `left` and `right`. -/
theorem intersects_axis_parallel_miss (box : AABB) (a b : Vec2)
    (h : (b.y = a.y ∧ a.y.IsFinite ∧ (a.y ≤ box.top ∨ box.bottom ≤ a.y)) ∨
      (b.x = a.x ∧ a.x.IsFinite ∧ (a.x ≤ box.left ∨ box.right ≤ a.x))) :
    (box.intersects a b).hit = false := by
  rcases h with ⟨hb, ⟨v, hv⟩, hout⟩ | ⟨hb, ⟨v, hv⟩, hout⟩
  · have hd : (b - a).y = 0 := by
      show b.y - a.y = 0
      rw [hb, hv]
      exact F32.sub_self_fin v
    have hrange : ¬ (box.top < a.y ∧ a.y < box.bottom) := by
      rintro ⟨h1, h2⟩
      rcases hout with h | h
      · exact F32.not_lt_of_le h h1
      · exact F32.not_lt_of_le h h2
    exact intersects_axis_miss_y hd hrange
  · have hd : (b - a).x = 0 := by
      show b.x - a.x = 0
      rw [hb, hv]
      exact F32.sub_self_fin v
    have hrange : ¬ (box.left < a.x ∧ a.x < box.right) := by
      rintro ⟨h1, h2⟩
      rcases hout with h | h
      · exact F32.not_lt_of_le h h1
      · exact F32.not_lt_of_le h h2
    exact intersects_axis_miss_x hd hrange

/-- C8 (witness): box `(0,0)` of size `(2,2)` and the horizontal segment from
`(-5,1)` to `(5,1)`, which runs along the bottom edge `y = 1`. -/
theorem intersects_axis_parallel_miss_witness :
    ((fin 1 : F32) = fin 1 ∧ (fin 1 : F32).IsFinite ∧
      (fin 1 ≤ (AABB.mk ⟨0, 0⟩ ⟨fin 2, fin 2⟩).top ∨
        (AABB.mk ⟨0, 0⟩ ⟨fin 2, fin 2⟩).bottom ≤ fin 1)) ∧
    ((AABB.mk ⟨0, 0⟩ ⟨fin 2, fin 2⟩).intersects ⟨fin (-5), fin 1⟩ ⟨fin 5, fin 1⟩).hit = false :=
  ⟨⟨rfl, ⟨1, rfl⟩, Or.inr (by decide!)⟩,
    intersects_axis_parallel_miss (AABB.mk ⟨0, 0⟩ ⟨fin 2, fin 2⟩) ⟨fin (-5), fin 1⟩
      ⟨fin 5, fin 1⟩ (Or.inl ⟨rfl, ⟨1, rfl⟩, Or.inr (by decide!)⟩)⟩

end AABB

end xr
namespace xr

open F32

/-- C3 (counterexample): box centre `(2^127, 0)`, size `(0, 2)`, segment from
`(-2^127, 0)` to `(2^127, 0)`, all finite binary32 values.  The displacement
`b.x - a.x = 2^128` overflows to `+inf`, the numerator `2^127 - (-2^127)` of the
x times overflows as well, `inf / inf` is NaN, the degenerate y axis stores
`-inf`, no comparison of the rejection test holds for NaN, and the hit is
returned with time `max(NaN, -inf) = NaN`, which is not in `[0, 1]`.  Both
`AABB::sweep` overloads return a hit with time NaN for the box `(-2^127, 0)` of
size `(0, 1)` and a box of size `(0, 1)` or a circle of radius `1/2` at
`(2^127, 0)` moved by `(2^127, 0)`. -/
theorem hit_time_can_be_nan :
    F32.IsBinary32 (2 ^ 127) ∧ F32.IsBinary32 (-2 ^ 127) ∧
    (AABB.mk ⟨fin (2 ^ 127), 0⟩ ⟨0, fin 2⟩).intersects ⟨fin (-2 ^ 127), 0⟩ ⟨fin (2 ^ 127), 0⟩ =
      ⟨true, nan, ⟨nan, nan⟩, ⟨0, 1⟩⟩ ∧
    ¬ (0 ≤ ((AABB.mk ⟨fin (2 ^ 127), 0⟩ ⟨0, fin 2⟩).intersects ⟨fin (-2 ^ 127), 0⟩
        ⟨fin (2 ^ 127), 0⟩).time) ∧
    (AABB.mk ⟨fin (-2 ^ 127), 0⟩ ⟨0, fin 1⟩).sweep (AABB.mk ⟨fin (2 ^ 127), 0⟩ ⟨0, fin 1⟩)
        ⟨fin (2 ^ 127), 0⟩ = ⟨true, nan, ⟨nan, nan⟩, ⟨0, 1⟩⟩ ∧
    (AABB.mk ⟨fin (-2 ^ 127), 0⟩ ⟨0, fin 1⟩).sweepCircle
        (Circle.mk ⟨fin (2 ^ 127), 0⟩ (fin (1 / 2))) ⟨fin (2 ^ 127), 0⟩ =
      ⟨true, nan, ⟨nan, nan⟩, ⟨0, 1⟩⟩ := by
  decide!

end xr

namespace xr

open F32

/-- C3 (amended): on a hit the time is never infinite, so the slab sentinels
`-INFINITY`/`INFINITY` never become the returned time.  `Circle::intersects` and
`Circle::sweep` always return a finite fraction of `[0, 1]`.
`AABB::intersects` and both `AABB::sweep` overloads return a finite fraction of
`[0, 1]` whenever the box data, the start point and the displacement `b - a`
that the segment test computes are finite; otherwise their time is NaN or a
finite fraction of `[0, 1]`. -/
theorem hit_time_nan_or_unit :
    (∀ (box : AABB) (a b : Vec2), (box.intersects a b).hit = true →
      ((box.intersects a b).time = nan ∨ (box.intersects a b).TimeInUnit)) ∧
    (∀ (boxA boxB : AABB) (delta : Vec2), (boxA.sweep boxB delta).hit = true →
      ((boxA.sweep boxB delta).time = nan ∨ (boxA.sweep boxB delta).TimeInUnit)) ∧
    (∀ (box : AABB) (circle : Circle) (delta : Vec2),
      (box.sweepCircle circle delta).hit = true →
      ((box.sweepCircle circle delta).time = nan ∨ (box.sweepCircle circle delta).TimeInUnit)) ∧
    (∀ (box : AABB) (a b : Vec2), box.center.IsFinite → box.size.IsFinite → a.IsFinite →
      (b - a).IsFinite → (box.intersects a b).hit = true →
      (box.intersects a b).TimeInUnit) ∧
    (∀ (boxA boxB : AABB) (delta : Vec2), boxA.center.IsFinite → boxA.size.IsFinite →
      boxB.size.IsFinite → boxB.center.IsFinite →
      ((boxB.center + delta) - boxB.center).IsFinite → (boxA.sweep boxB delta).hit = true →
      (boxA.sweep boxB delta).TimeInUnit) ∧
    (∀ (box : AABB) (circle : Circle) (delta : Vec2), box.center.IsFinite →
      box.size.IsFinite → circle.radius.IsFinite → circle.center.IsFinite →
      ((circle.center + delta) - circle.center).IsFinite →
      (box.sweepCircle circle delta).hit = true →
      (box.sweepCircle circle delta).TimeInUnit) ∧
    (∀ (c : Circle) (start end_ : Vec2), (c.intersects start end_).hit = true →
      (c.intersects start end_).TimeInUnit) ∧
    (∀ (c circle : Circle) (delta : Vec2), (c.sweep circle delta).hit = true →
      (c.sweep circle delta).TimeInUnit) := by
  refine ⟨fun box a b h => AABB.intersects_time_cases h,
    fun boxA boxB delta h => AABB.intersects_time_cases h,
    fun box circle delta h => AABB.sweepCircle_time_cases h,
    fun box a b hc hs ha hd h =>
      AABB.intersects_time_of_finite hc ⟨?_, ?_⟩ ha hd h,
    fun boxA boxB delta hc hs hs2 ha hd h => AABB.sweep_time_of_finite hc hs hs2 ha hd h,
    fun box circle delta hc hs hr ha hd h =>
      AABB.sweepCircle_time_of_finite hc hs hr ha hd h,
    fun c start end_ h => Circle.circle_intersects_time h,
    fun c circle delta h => Circle.circle_intersects_time h⟩
  · obtain ⟨v, hv⟩ := hs.1
    rw [hv]; simp
  · obtain ⟨v, hv⟩ := hs.2
    rw [hv]; simp

/-- C3 (witness): the box `(0,0)` of size `(2,2)` with the segment from `(-5,0)`
to `(5,0)`, and the circle `(0,0)` of radius `1` with the same segment: finite
data, a hit, and the time `0.4` rounded to binary32. -/
theorem hit_time_nan_or_unit_witness :
    ((AABB.mk ⟨0, 0⟩ ⟨fin 2, fin 2⟩).intersects ⟨fin (-5), 0⟩ ⟨fin 5, 0⟩).hit = true ∧
    ((AABB.mk ⟨0, 0⟩ ⟨fin 2, fin 2⟩).intersects ⟨fin (-5), 0⟩ ⟨fin 5, 0⟩).time =
      F32.round (2 / 5) ∧
    ((AABB.mk ⟨0, 0⟩ ⟨fin 2, fin 2⟩).intersects ⟨fin (-5), 0⟩ ⟨fin 5, 0⟩).TimeInUnit ∧
    ((Circle.mk ⟨0, 0⟩ 1).intersects ⟨fin (-5), 0⟩ ⟨fin 5, 0⟩).TimeInUnit :=
  ⟨by decide!, by decide!,
    hit_time_nan_or_unit.2.2.2.1 (AABB.mk ⟨0, 0⟩ ⟨fin 2, fin 2⟩) ⟨fin (-5), 0⟩ ⟨fin 5, 0⟩
      ⟨⟨0, rfl⟩, ⟨0, rfl⟩⟩ ⟨⟨2, rfl⟩, ⟨2, rfl⟩⟩ ⟨⟨-5, rfl⟩, ⟨0, rfl⟩⟩
      ⟨⟨10, by decide!⟩, ⟨0, by decide!⟩⟩ (by decide!),
    hit_time_nan_or_unit.2.2.2.2.2.2.1 (Circle.mk ⟨0, 0⟩ 1) ⟨fin (-5), 0⟩ ⟨fin 5, 0⟩
      (by decide!)⟩

end xr
namespace xr

open F32

namespace AABB

/-- C5 (counterexample): box centre `(2^127, 0)`, size `(0, 2)`, segment from
`(-2^127, 0)` to `(2^127, 0)`; `a` is not strictly inside the box and the
segment test returns a hit.  The x entry time is NaN, so the comparison
`entryTimes.x > entryTimes.y` is false and the y branch sets the normal
`(0, 1)`, although the displacement is zero on the y axis. -/
theorem zero_axis_normal_on_nan_entry :
    ¬ (AABB.mk ⟨fin (2 ^ 127), 0⟩ ⟨0, fin 2⟩).contains ⟨fin (-2 ^ 127), 0⟩ ∧
    ((AABB.mk ⟨fin (2 ^ 127), 0⟩ ⟨0, fin 2⟩).intersects ⟨fin (-2 ^ 127), 0⟩
      ⟨fin (2 ^ 127), 0⟩).hit = true ∧
    ((AABB.mk ⟨fin (2 ^ 127), 0⟩ ⟨0, fin 2⟩).intersects ⟨fin (-2 ^ 127), 0⟩
      ⟨fin (2 ^ 127), 0⟩).normal = ⟨0, 1⟩ ∧
    ((⟨fin (2 ^ 127), 0⟩ : Vec2) - ⟨fin (-2 ^ 127), 0⟩).y = 0 ∧
    slabAxis (AABB.mk ⟨fin (2 ^ 127), 0⟩ ⟨0, fin 2⟩).left
      (AABB.mk ⟨fin (2 ^ 127), 0⟩ ⟨0, fin 2⟩).right (fin (-2 ^ 127))
      ((⟨fin (2 ^ 127), 0⟩ : Vec2) - ⟨fin (-2 ^ 127), 0⟩).x = some (nan, nan) ∧
    slabAxis (AABB.mk ⟨fin (2 ^ 127), 0⟩ ⟨0, fin 2⟩).top
      (AABB.mk ⟨fin (2 ^ 127), 0⟩ ⟨0, fin 2⟩).bottom 0
      ((⟨fin (2 ^ 127), 0⟩ : Vec2) - ⟨fin (-2 ^ 127), 0⟩).y = some (negInf, posInf) := by
  decide!

/-- C5 (amended): for a finite box, a finite start point `a` that is not
strictly inside the box and a finite computed displacement `delta = b - a`, a
hit of `intersects(a, b)` has the normal `(-1, 0)` or `(1, 0)` when the stored x
entry time is greater than the stored y entry time and `(0, -1)` or `(0, 1)`
otherwise; the displacement is non-zero on the chosen axis and the non-zero
component of the normal has the opposite sign.  For the box `(0,0)` of size
`(2,2)` and the segment from `(-5,0)` to `(5,0)` the result is the time
`0.4` rounded to binary32, the point `(-1,0)` and the normal `(-1,0)`. -/
theorem slab_hit_normal (box : AABB) (a b : Vec2) (hc : box.center.IsFinite)
    (hs : box.size.IsFinite) (ha : a.IsFinite) (hd : (b - a).IsFinite)
    (hout : ¬ box.contains a) (hhit : (box.intersects a b).hit = true) :
    (∃ eX xX eY xY : F32,
      slabAxis box.left box.right a.x (b - a).x = some (eX, xX) ∧
      slabAxis box.top box.bottom a.y (b - a).y = some (eY, xY) ∧
      (eX > eY → ((0 < (b - a).x ∧ (box.intersects a b).normal = ⟨-1, 0⟩) ∨
        ((b - a).x < 0 ∧ (box.intersects a b).normal = ⟨1, 0⟩))) ∧
      (¬ eX > eY → ((0 < (b - a).y ∧ (box.intersects a b).normal = ⟨0, -1⟩) ∨
        ((b - a).y < 0 ∧ (box.intersects a b).normal = ⟨0, 1⟩)))) ∧
    (AABB.mk ⟨0, 0⟩ ⟨fin 2, fin 2⟩).intersects ⟨fin (-5), 0⟩ ⟨fin 5, 0⟩ =
      ⟨true, F32.round (2 / 5), ⟨fin (-1), 0⟩, ⟨fin (-1), 0⟩⟩ := by
  refine ⟨?_, by decide!⟩
  obtain ⟨eX, xX, eY, xY, hX, hY, hres⟩ := intersects_hit_outside hout hhit
  have hsn : box.size.x ≠ nan ∧ box.size.y ≠ nan := by
    obtain ⟨⟨sx, hsx⟩, ⟨sy, hsy⟩⟩ := hs
    rw [hsx, hsy]; exact ⟨by simp, by simp⟩
  obtain ⟨hl, hr, ht, hb⟩ := bounds_ne_nan hc hsn
  have hnX := (slabAxis_ne_nan hl hr ha.1 hd.1 hX).1
  have hnY := (slabAxis_ne_nan ht hb ha.2 hd.2 hY).1
  have hdx : (b - a).x ≠ nan := by obtain ⟨v, hv⟩ := hd.1; rw [hv]; simp
  have hdy : (b - a).y ≠ nan := by obtain ⟨v, hv⟩ := hd.2; rw [hv]; simp
  rw [hres] at hhit
  have hn := (slabResult_hit_iff _ _ _ _ _ _).1 hhit
  simp only [not_or] at hn
  obtain ⟨-, -, h0, -, -⟩ := hn
  refine ⟨eX, xX, eY, xY, hX, hY, ?_, ?_⟩
  · intro hgt
    have hne : eX ≠ negInf := by
      intro h; rw [h] at hgt; simp at hgt
    have hd0 := slabAxis_delta_ne_zero hX hne
    rw [hres, slabResult_of_hit hhit]
    simp only [if_pos hgt]
    rcases F32.pos_or_neg_of_ne_zero hdx hd0 with hp | hm
    · left; exact ⟨hp, by rw [if_pos hp]⟩
    · right
      have hnp : ¬ (0 < (b - a).x) := fun hp => F32.lt_asymm hp hm
      exact ⟨hm, by rw [if_neg hnp]⟩
  · intro hngt
    have hmax : stdMax eX eY = eY := by
      unfold stdMax
      by_cases hlt : eX < eY
      · rw [if_pos hlt]
      · rw [if_neg hlt]
        exact F32.eq_of_not_lt_of_not_gt hnX hnY hlt hngt
    rw [hmax] at h0
    have hne : eY ≠ negInf := by
      intro h; rw [h] at h0; simp [F32.zero_def] at h0
    have hd0 := slabAxis_delta_ne_zero hY hne
    rw [hres, slabResult_of_hit hhit]
    simp only [if_neg hngt]
    rcases F32.pos_or_neg_of_ne_zero hdy hd0 with hp | hm
    · left; exact ⟨hp, by rw [if_pos hp]⟩
    · right
      have hnp : ¬ (0 < (b - a).y) := fun hp => F32.lt_asymm hp hm
      exact ⟨hm, by rw [if_neg hnp]⟩

/-- C5 (witness): box `(0,0)` of size `(2,2)` and the segment from `(-5,-2)` to
`(5,2)`, which enters through the left edge. -/
theorem slab_hit_normal_witness :
    ¬ (AABB.mk ⟨0, 0⟩ ⟨fin 2, fin 2⟩).contains ⟨fin (-5), fin (-2)⟩ ∧
    ((AABB.mk ⟨0, 0⟩ ⟨fin 2, fin 2⟩).intersects ⟨fin (-5), fin (-2)⟩ ⟨fin 5, fin 2⟩).hit = true ∧
    (AABB.mk ⟨0, 0⟩ ⟨fin 2, fin 2⟩).intersects ⟨fin (-5), fin (-2)⟩ ⟨fin 5, fin 2⟩ =
      ⟨true, F32.round (2 / 5), ⟨fin (-1), fin (-3355443 / 8388608)⟩, ⟨fin (-1), 0⟩⟩ ∧
    ((∃ eX xX eY xY : F32,
      slabAxis (AABB.mk ⟨0, 0⟩ ⟨fin 2, fin 2⟩).left (AABB.mk ⟨0, 0⟩ ⟨fin 2, fin 2⟩).right
        (fin (-5)) ((⟨fin 5, fin 2⟩ : Vec2) - ⟨fin (-5), fin (-2)⟩).x = some (eX, xX) ∧
      slabAxis (AABB.mk ⟨0, 0⟩ ⟨fin 2, fin 2⟩).top (AABB.mk ⟨0, 0⟩ ⟨fin 2, fin 2⟩).bottom
        (fin (-2)) ((⟨fin 5, fin 2⟩ : Vec2) - ⟨fin (-5), fin (-2)⟩).y = some (eY, xY) ∧
      (eX > eY → ((0 < ((⟨fin 5, fin 2⟩ : Vec2) - ⟨fin (-5), fin (-2)⟩).x ∧
          ((AABB.mk ⟨0, 0⟩ ⟨fin 2, fin 2⟩).intersects ⟨fin (-5), fin (-2)⟩
            ⟨fin 5, fin 2⟩).normal = ⟨-1, 0⟩) ∨
        (((⟨fin 5, fin 2⟩ : Vec2) - ⟨fin (-5), fin (-2)⟩).x < 0 ∧
          ((AABB.mk ⟨0, 0⟩ ⟨fin 2, fin 2⟩).intersects ⟨fin (-5), fin (-2)⟩
            ⟨fin 5, fin 2⟩).normal = ⟨1, 0⟩))) ∧
      (¬ eX > eY → ((0 < ((⟨fin 5, fin 2⟩ : Vec2) - ⟨fin (-5), fin (-2)⟩).y ∧
          ((AABB.mk ⟨0, 0⟩ ⟨fin 2, fin 2⟩).intersects ⟨fin (-5), fin (-2)⟩
            ⟨fin 5, fin 2⟩).normal = ⟨0, -1⟩) ∨
        (((⟨fin 5, fin 2⟩ : Vec2) - ⟨fin (-5), fin (-2)⟩).y < 0 ∧
          ((AABB.mk ⟨0, 0⟩ ⟨fin 2, fin 2⟩).intersects ⟨fin (-5), fin (-2)⟩
            ⟨fin 5, fin 2⟩).normal = ⟨0, 1⟩)))) ∧
    (AABB.mk ⟨0, 0⟩ ⟨fin 2, fin 2⟩).intersects ⟨fin (-5), 0⟩ ⟨fin 5, 0⟩ =
      ⟨true, F32.round (2 / 5), ⟨fin (-1), 0⟩, ⟨fin (-1), 0⟩⟩) :=
  ⟨by decide!, by decide!, by decide!,
    slab_hit_normal (AABB.mk ⟨0, 0⟩ ⟨fin 2, fin 2⟩) ⟨fin (-5), fin (-2)⟩ ⟨fin 5, fin 2⟩
      ⟨⟨0, rfl⟩, ⟨0, rfl⟩⟩ ⟨⟨2, rfl⟩, ⟨2, rfl⟩⟩ ⟨⟨-5, rfl⟩, ⟨-2, rfl⟩⟩
      ⟨⟨10, by decide!⟩, ⟨4, by decide!⟩⟩ (by decide!) (by decide!)⟩

end AABB

end xr
namespace xr

open F32

namespace AABB

/-- C10 (counterexample): there is no box and segment, with `a` not strictly
inside the box, whose stored times satisfy `entryTime <= exitTime` and
`0 <= entryTime <= 1` while one axis's exit time is less than the other axis's
entry time; and for a segment with zero displacement on an axis (stored times
`-inf`, `+inf`) removing the cross-axis test never changes the returned Hit. -/
theorem cross_axis_test_never_decides_after_le :
    (¬ ∃ (box : AABB) (a b : Vec2) (eX xX eY xY : F32),
      ¬ box.contains a ∧
      slabAxis box.left box.right a.x (b - a).x = some (eX, xX) ∧
      slabAxis box.top box.bottom a.y (b - a).y = some (eY, xY) ∧
      stdMax eX eY ≤ stdMin xX xY ∧ 0 ≤ stdMax eX eY ∧ stdMax eX eY ≤ 1 ∧
      (xX < eY ∨ xY < eX)) ∧
    (¬ ∃ (box : AABB) (a b : Vec2), ((b - a).x = 0 ∨ (b - a).y = 0) ∧
      box.intersectsNoCross a b ≠ box.intersects a b) := by
  constructor
  · rintro ⟨box, a, b, eX, xX, eY, xY, -, -, -, hle, -, -, hcross⟩
    obtain ⟨h1, h2⟩ := cross_false_of_le hle
    rcases hcross with h | h
    · exact h1 h
    · exact h2 h
  · rintro ⟨box, a, b, hdeg, hne⟩
    exact hne (intersectsNoCross_of_degenerate box a b hdeg)

/-- C10 (amended): the cross-axis comparisons are required in addition to the
max/min test, through NaN only.  For the box `(0,0)` of size `(2^127, 2)` and
the segment from `(-3*2^126, 5)` to `(3*2^126, 10)`, which passes above the box,
`a` is not strictly inside the box, the x displacement overflows to `+inf`, the
stored times are `0`, NaN on the x axis and `-6/5`, `-4/5` (rounded) on the y
axis, so `exitTime` is NaN and none of `entryTime > exitTime`, `entryTime > 1`,
`entryTime < 0` holds, yet `exitTimes.y < entryTimes.x`; the segment test
returns no hit, and without the cross-axis comparisons it returns a hit at
time `0`. -/
theorem cross_axis_test_rejects_nan_exit :
    F32.IsBinary32 (2 ^ 127) ∧ F32.IsBinary32 (3 * 2 ^ 126) ∧
    ¬ (AABB.mk ⟨0, 0⟩ ⟨fin (2 ^ 127), fin 2⟩).contains ⟨fin (-(3 * 2 ^ 126)), fin 5⟩ ∧
    ((⟨fin (3 * 2 ^ 126), fin 10⟩ : Vec2) - ⟨fin (-(3 * 2 ^ 126)), fin 5⟩) = ⟨posInf, fin 5⟩ ∧
    slabAxis (AABB.mk ⟨0, 0⟩ ⟨fin (2 ^ 127), fin 2⟩).left
      (AABB.mk ⟨0, 0⟩ ⟨fin (2 ^ 127), fin 2⟩).right (fin (-(3 * 2 ^ 126))) posInf =
      some (fin 0, nan) ∧
    slabAxis (AABB.mk ⟨0, 0⟩ ⟨fin (2 ^ 127), fin 2⟩).top
      (AABB.mk ⟨0, 0⟩ ⟨fin (2 ^ 127), fin 2⟩).bottom (fin 5) (fin 5) =
      some (F32.round (-6 / 5), F32.round (-4 / 5)) ∧
    stdMax (fin 0) (F32.round (-6 / 5)) = fin 0 ∧
    stdMin nan (F32.round (-4 / 5)) = nan ∧
    ¬ (stdMax (fin 0) (F32.round (-6 / 5)) > stdMin nan (F32.round (-4 / 5))) ∧
    ¬ (stdMax (fin 0) (F32.round (-6 / 5)) > 1) ∧
    ¬ (stdMax (fin 0) (F32.round (-6 / 5)) < 0) ∧
    F32.round (-4 / 5) < fin 0 ∧
    (AABB.mk ⟨0, 0⟩ ⟨fin (2 ^ 127), fin 2⟩).intersects ⟨fin (-(3 * 2 ^ 126)), fin 5⟩
      ⟨fin (3 * 2 ^ 126), fin 10⟩ = Hit.miss ∧
    (AABB.mk ⟨0, 0⟩ ⟨fin (2 ^ 127), fin 2⟩).intersectsNoCross ⟨fin (-(3 * 2 ^ 126)), fin 5⟩
      ⟨fin (3 * 2 ^ 126), fin 10⟩ = ⟨true, fin 0, ⟨nan, fin 5⟩, ⟨fin (-1), 0⟩⟩ := by
  decide!

end AABB

end xr
namespace xr

open F32

namespace AABB

/-- C1 (counterexample): boxes `(0,0)` and `(2,0)` of size `(2,2)` share an edge;
with displacement `(0,1)` the inclusive overlap test `intersects(box)` holds at
`t = 0`, yet the sweep reports no hit. -/
theorem sweep_box_touching_is_missed :
    (∃ t : F32, 0 ≤ t ∧ t ≤ 1 ∧
      (AABB.mk ⟨0, 0⟩ ⟨fin 2, fin 2⟩).intersectsBox
        ((AABB.mk ⟨fin 2, 0⟩ ⟨fin 2, fin 2⟩).translate (Vec2.scale t ⟨0, fin 1⟩))) ∧
    ((AABB.mk ⟨0, 0⟩ ⟨fin 2, fin 2⟩).sweep (AABB.mk ⟨fin 2, 0⟩ ⟨fin 2, fin 2⟩)
      ⟨0, fin 1⟩).hit = false :=
  ⟨⟨0, by decide!, by decide!, by decide!⟩, by decide!⟩

/-- C1 (amended): when the centre of `boxB` is strictly inside the padded box
`{ boxA.center, boxA.size + boxB.size }`, with the bounds `center -+ size / 2`
as `AABB::contains` computes them, the sweep returns a hit with time `0`, the
least value of `[0, 1]`, at the point `boxB.center`, with zero normal, for
every displacement. -/
theorem sweep_box_start_overlap (boxA boxB : AABB) (delta : Vec2)
    (h : (boxA.paddedByBox boxB).contains boxB.center) :
    (boxA.sweep boxB delta).hit = true ∧ (boxA.sweep boxB delta).time = fin 0 ∧
      (boxA.sweep boxB delta).point = boxB.center ∧ (boxA.sweep boxB delta).normal = 0 ∧
      ∀ t : F32, 0 ≤ t → (boxA.sweep boxB delta).time ≤ t := by
  have he : boxA.sweep boxB delta = Hit.inside boxB.center :=
    @intersects_of_contains (boxA.paddedByBox boxB) boxB.center (boxB.center + delta) h
  rw [he]
  exact ⟨rfl, rfl, rfl, rfl, fun t ht => ht⟩

/-- C1 (witness): boxes `(0,0)` and `(1,0)` of size `(2,2)`, displacement
`(-4,0)`. -/
theorem sweep_box_start_overlap_witness :
    ((AABB.mk ⟨0, 0⟩ ⟨fin 2, fin 2⟩).paddedByBox (AABB.mk ⟨fin 1, 0⟩ ⟨fin 2, fin 2⟩)).contains
      ⟨fin 1, 0⟩ ∧
    ((AABB.mk ⟨0, 0⟩ ⟨fin 2, fin 2⟩).sweep (AABB.mk ⟨fin 1, 0⟩ ⟨fin 2, fin 2⟩)
      ⟨fin (-4), 0⟩).hit = true ∧
    ((AABB.mk ⟨0, 0⟩ ⟨fin 2, fin 2⟩).sweep (AABB.mk ⟨fin 1, 0⟩ ⟨fin 2, fin 2⟩)
      ⟨fin (-4), 0⟩).time = fin 0 :=
  ⟨by decide!,
    (sweep_box_start_overlap (AABB.mk ⟨0, 0⟩ ⟨fin 2, fin 2⟩) (AABB.mk ⟨fin 1, 0⟩ ⟨fin 2, fin 2⟩)
      ⟨fin (-4), 0⟩ (by decide!)).1,
    (sweep_box_start_overlap (AABB.mk ⟨0, 0⟩ ⟨fin 2, fin 2⟩) (AABB.mk ⟨fin 1, 0⟩ ⟨fin 2, fin 2⟩)
      ⟨fin (-4), 0⟩ (by decide!)).2.1⟩

/-- C11 (counterexample): two coincident boxes of size `(1,1)` centred at
`(2^24, 0)` with zero displacement.  Their interiors overlap at every `t`, but
the right bound `2^24 + 1` of the padded box rounds to `2^24`, the start point
is not strictly inside the padded box, and the sweep returns no hit.  The same
happens at moderate coordinates: boxes centred `(1000,0)` of size
`(1 + 2^-16, 1)` and `(1001,0)` of size `(1,1)`, whose interiors overlap in a
strip of width `2^-17`. -/
theorem sweep_box_misses_overlapping_boxes :
    ((AABB.mk ⟨fin 16777216, 0⟩ ⟨fin 1, fin 1⟩).sweep
      (AABB.mk ⟨fin 16777216, 0⟩ ⟨fin 1, fin 1⟩) ⟨0, 0⟩).hit = false ∧
    (∃ t : ℚ, 0 ≤ t ∧ t ≤ 1 ∧
      (AABB.mk ⟨fin 16777216, 0⟩ ⟨fin 1, fin 1⟩).interiorsOverlapAt
        (AABB.mk ⟨fin 16777216, 0⟩ ⟨fin 1, fin 1⟩) ⟨0, 0⟩ t) ∧
    F32.IsBinary32 16777216 ∧ F32.IsBinary32 (65537 / 65536) ∧
    ((AABB.mk ⟨fin 1000, 0⟩ ⟨fin (65537 / 65536), fin 1⟩).sweep
      (AABB.mk ⟨fin 1001, 0⟩ ⟨fin 1, fin 1⟩) ⟨0, 0⟩).hit = false ∧
    (∃ t : ℚ, 0 ≤ t ∧ t ≤ 1 ∧
      (AABB.mk ⟨fin 1000, 0⟩ ⟨fin (65537 / 65536), fin 1⟩).interiorsOverlapAt
        (AABB.mk ⟨fin 1001, 0⟩ ⟨fin 1, fin 1⟩) ⟨0, 0⟩ t) := by
  refine ⟨by decide!, ⟨0, le_refl _, zero_le_one, ?_⟩, by decide!, by decide!, by decide!,
    ⟨0, le_refl _, zero_le_one, ?_⟩⟩
  · simp only [interiorsOverlapAt, F32.toRat, F32.zero_def]
    norm_num
  · simp only [interiorsOverlapAt, F32.toRat, F32.zero_def]
    norm_num [abs_lt]

/-- C11 (amended): when the sweep returns no hit, the centre of `boxB` is not
strictly inside the padded box `{ boxA.center, boxA.size + boxB.size }` as
`AABB::contains` computes it, so the boxes do not overlap at `t = 0` in the
arithmetic of the code; and for a finite centre and a displacement that leaves
it unchanged (in particular the zero vector) the sweep returns no hit exactly
in that case. -/
theorem sweep_box_miss_start_outside (boxA boxB : AABB) (delta : Vec2) :
    ((boxA.sweep boxB delta).hit = false →
      ¬ (boxA.paddedByBox boxB).contains boxB.center) ∧
    (boxB.center.IsFinite → boxB.center + delta = boxB.center →
      ¬ (boxA.paddedByBox boxB).contains boxB.center →
      (boxA.sweep boxB delta).hit = false) := by
  constructor
  · intro hmiss hin
    have he : boxA.sweep boxB delta = Hit.inside boxB.center :=
      @intersects_of_contains (boxA.paddedByBox boxB) boxB.center (boxB.center + delta) hin
    rw [he] at hmiss
    simp [Hit.inside] at hmiss
  · intro hfin hstat hout
    obtain ⟨⟨vx, hvx⟩, ⟨vy, hvy⟩⟩ := hfin
    have hdx : ((boxB.center + delta) - boxB.center).x = 0 := by
      rw [hstat]; show boxB.center.x - boxB.center.x = 0
      rw [hvx]; exact F32.sub_self_fin vx
    have hdy : ((boxB.center + delta) - boxB.center).y = 0 := by
      rw [hstat]; show boxB.center.y - boxB.center.y = 0
      rw [hvy]; exact F32.sub_self_fin vy
    show ((boxA.paddedByBox boxB).intersects boxB.center (boxB.center + delta)).hit = false
    by_cases hx : (boxA.paddedByBox boxB).left < boxB.center.x ∧
        boxB.center.x < (boxA.paddedByBox boxB).right
    · have hy : ¬ ((boxA.paddedByBox boxB).top < boxB.center.y ∧
          boxB.center.y < (boxA.paddedByBox boxB).bottom) :=
        fun hy => hout ⟨hx.1, hx.2, hy.1, hy.2⟩
      exact intersects_axis_miss_y hdy hy
    · exact intersects_axis_miss_x hdx hx

/-- C11 (witness): boxes `(0,0)` and `(5,0)` of size `(2,2)` with zero
displacement: the start is outside the padded box and the sweep returns no
hit. -/
theorem sweep_box_miss_start_outside_witness :
    ((AABB.mk ⟨0, 0⟩ ⟨fin 2, fin 2⟩).sweep (AABB.mk ⟨fin 5, 0⟩ ⟨fin 2, fin 2⟩) ⟨0, 0⟩).hit =
      false ∧
    ¬ ((AABB.mk ⟨0, 0⟩ ⟨fin 2, fin 2⟩).paddedByBox (AABB.mk ⟨fin 5, 0⟩ ⟨fin 2, fin 2⟩)).contains
      (AABB.mk ⟨fin 5, 0⟩ ⟨fin 2, fin 2⟩).center :=
  ⟨(sweep_box_miss_start_outside (AABB.mk ⟨0, 0⟩ ⟨fin 2, fin 2⟩)
      (AABB.mk ⟨fin 5, 0⟩ ⟨fin 2, fin 2⟩) ⟨0, 0⟩).2 ⟨⟨5, rfl⟩, ⟨0, rfl⟩⟩ (by decide!)
      (by decide!),
    (sweep_box_miss_start_outside (AABB.mk ⟨0, 0⟩ ⟨fin 2, fin 2⟩)
      (AABB.mk ⟨fin 5, 0⟩ ⟨fin 2, fin 2⟩) ⟨0, 0⟩).1 (by decide!)⟩

end AABB

end xr
namespace xr

open F32

/-! ## Claims about `Circle::intersects` and `Circle::sweep` -/

namespace Circle

/-- C6 (counterexample): circle centre `(0,0)`, radius `1`, segment from
`(-10000, 1/2)` to `(10000, 1/2)`.  The computed discriminant
`b*b - 4*a*c` rounds to `0`, both roots are `1/2`, and the hit is reported at
the point `(0, 1/2)`, whose distance to the centre is `1/2`, not the radius; the
normal `(0, 1)` is not `(point - centre) / radius = (0, 1/2)`. -/
theorem circle_hit_off_circle :
    (Circle.mk ⟨0, 0⟩ 1).intersects ⟨fin (-10000), fin (1 / 2)⟩ ⟨fin 10000, fin (1 / 2)⟩ =
      ⟨true, fin (1 / 2), ⟨0, fin (1 / 2)⟩, ⟨0, 1⟩⟩ ∧
    discriminant (Circle.mk ⟨0, 0⟩ 1) ⟨fin (-10000), fin (1 / 2)⟩ ⟨fin 10000, fin (1 / 2)⟩ = 0 ∧
    distSqExact ((Circle.mk ⟨0, 0⟩ 1).intersects ⟨fin (-10000), fin (1 / 2)⟩
      ⟨fin 10000, fin (1 / 2)⟩).point (Circle.mk ⟨0, 0⟩ 1).center ≠
        (Circle.mk ⟨0, 0⟩ 1).radius.toRat ^ 2 ∧
    ((Circle.mk ⟨0, 0⟩ 1).intersects ⟨fin (-10000), fin (1 / 2)⟩
      ⟨fin 10000, fin (1 / 2)⟩).normal ≠
      Vec2.scaleRight (((Circle.mk ⟨0, 0⟩ 1).intersects ⟨fin (-10000), fin (1 / 2)⟩
        ⟨fin 10000, fin (1 / 2)⟩).point - (Circle.mk ⟨0, 0⟩ 1).center)
        (1 / (Circle.mk ⟨0, 0⟩ 1).radius) := by
  decide!

/-- C6 (amended): on a hit of `Circle::intersects` the time is one of the two
computed roots of the quadratic, a finite fraction of `[0, 1]`, the point is
`start + time * (end - start)` and the normal is
`normalize(point - centre)`, all as computed in binary32; the point lies on the
circle up to the rounding of these operations only.  For the circle `(0,0)` of
radius `1` and the segment from `(-5,0)` to `(5,0)` the result is the time `0.4`
rounded to binary32, the point `(-1,0)` and the normal `(-1,0)`. -/
theorem circle_hit_point_and_normal (c : Circle) (start end_ : Vec2)
    (h : (c.intersects start end_).hit = true) :
    ((c.intersects start end_).time = root1 c start end_ ∨
      (c.intersects start end_).time = root2 c start end_) ∧
    (c.intersects start end_).TimeInUnit ∧
    (c.intersects start end_).point =
      start + Vec2.scale (c.intersects start end_).time (end_ - start) ∧
    (c.intersects start end_).normal =
      Vec2.normalize ((c.intersects start end_).point - c.center) ∧
    (Circle.mk ⟨0, 0⟩ 1).intersects ⟨fin (-5), 0⟩ ⟨fin 5, 0⟩ =
      ⟨true, F32.round (2 / 5), ⟨fin (-1), 0⟩, ⟨fin (-1), 0⟩⟩ := by
  refine ⟨?_, circle_intersects_time h, ?_, ?_, by decide!⟩
  · rcases circle_intersects_cases c start end_ with ⟨-, -, he⟩ | ⟨-, -, -, he⟩ | ⟨-, he⟩
    · left; rw [he]; rfl
    · right; rw [he]; rfl
    · rw [he] at h; simp [Hit.miss] at h
  · rcases circle_intersects_cases c start end_ with ⟨-, -, he⟩ | ⟨-, -, -, he⟩ | ⟨-, he⟩
    · rw [he]; rfl
    · rw [he]; rfl
    · rw [he] at h; simp [Hit.miss] at h
  · rcases circle_intersects_cases c start end_ with ⟨-, -, he⟩ | ⟨-, -, -, he⟩ | ⟨-, he⟩
    · rw [he]; rfl
    · rw [he]; rfl
    · rw [he] at h; simp [Hit.miss] at h

/-- C6 (witness): circle `(0,0)` of radius `1` and the segment from `(-5,0)` to
`(5,0)`. -/
theorem circle_hit_point_and_normal_witness :
    ((Circle.mk ⟨0, 0⟩ 1).intersects ⟨fin (-5), 0⟩ ⟨fin 5, 0⟩).hit = true ∧
    ((Circle.mk ⟨0, 0⟩ 1).intersects ⟨fin (-5), 0⟩ ⟨fin 5, 0⟩).TimeInUnit ∧
    ((Circle.mk ⟨0, 0⟩ 1).intersects ⟨fin (-5), 0⟩ ⟨fin 5, 0⟩).normal =
      Vec2.normalize (((Circle.mk ⟨0, 0⟩ 1).intersects ⟨fin (-5), 0⟩ ⟨fin 5, 0⟩).point -
        (Circle.mk ⟨0, 0⟩ 1).center) :=
  ⟨by decide!,
    (circle_hit_point_and_normal (Circle.mk ⟨0, 0⟩ 1) ⟨fin (-5), 0⟩ ⟨fin 5, 0⟩ (by decide!)).2.1,
    (circle_hit_point_and_normal (Circle.mk ⟨0, 0⟩ 1) ⟨fin (-5), 0⟩ ⟨fin 5, 0⟩
      (by decide!)).2.2.2.1⟩

/-- C7 (counterexample): a hit without a touch and a touch without a hit.
Static circle `(0,0)` of radius `1/2`; the moving circle of radius `1/2` starts
at `(-1000, 129/128)` and moves by `(2000, 0)`: the centres are never closer
than `129/128 > 1`, yet the sweep returns a hit at time `1/2`, because
`dot(direction, direction) = 1000000 + (129/128)^2` rounds to `1000001`.
Static circle `(0,0)` of radius `1`; the moving circle of radius `1` starts at
`(-2^64, 0)` and moves by `(2^65, 0)` through the centre (the centres coincide
at `t = 1/2`), yet the sweep returns no hit, because `dot(delta, delta)`
overflows and the discriminant is NaN. -/
theorem circle_sweep_phantom_and_missed :
    ((Circle.mk ⟨0, 0⟩ (fin (1 / 2))).sweep (Circle.mk ⟨fin (-1000), fin (129 / 128)⟩
      (fin (1 / 2))) ⟨fin 2000, 0⟩) = ⟨true, fin (1 / 2), ⟨0, fin (129 / 128)⟩, ⟨0, 1⟩⟩ ∧
    (¬ ∃ t : ℚ, 0 ≤ t ∧ t ≤ 1 ∧
      (Circle.mk ⟨0, 0⟩ (fin (1 / 2))).touchesAt (Circle.mk ⟨fin (-1000), fin (129 / 128)⟩
        (fin (1 / 2))) ⟨fin 2000, 0⟩ t) ∧
    ((Circle.mk ⟨0, 0⟩ 1).sweep (Circle.mk ⟨fin (-2 ^ 64), 0⟩ 1) ⟨fin (2 ^ 65), 0⟩).hit = false ∧
    ¬ (Circle.mk ⟨0, 0⟩ 1).touchesAt (Circle.mk ⟨fin (-2 ^ 64), 0⟩ 1) ⟨fin (2 ^ 65), 0⟩ 0 ∧
    (Circle.mk ⟨0, 0⟩ 1).touchesAt (Circle.mk ⟨fin (-2 ^ 64), 0⟩ 1) ⟨fin (2 ^ 65), 0⟩ (1 / 2) := by
  refine ⟨by decide!, ?_, by decide!, ?_, ?_⟩
  · rintro ⟨t, -, -, ht⟩
    simp only [touchesAt, F32.toRat, F32.zero_def] at ht
    nlinarith [sq_nonneg (-1000 + t * 2000 - 0 : ℚ)]
  · simp only [touchesAt, F32.toRat, F32.zero_def, F32.one_def]
    norm_num
  · simp only [touchesAt, F32.toRat, F32.zero_def, F32.one_def]
    norm_num

/-- C7 (amended): `C1.sweep(C2, delta)` is the segment test of the circle of
centre `C1.center` and radius `r1 + r2` (rounded) on the segment from
`C2.center` to `C2.center + delta`: it returns a hit exactly when the computed
discriminant passes `>= 0` and one of the two computed roots `t1`, `t2` lies in
`[0, 1]`, and the returned time is then `t1` when `t1` lies in `[0, 1]` and `t2`
otherwise, a finite fraction of `[0, 1]`. -/
theorem circle_sweep_first_root (c circle : Circle) (delta : Vec2) :
    ((c.sweep circle delta).hit = true ↔
      (discriminant ⟨c.center, c.radius + circle.radius⟩ circle.center
          (circle.center + delta) ≥ 0 ∧
        ((0 ≤ root1 ⟨c.center, c.radius + circle.radius⟩ circle.center (circle.center + delta) ∧
          root1 ⟨c.center, c.radius + circle.radius⟩ circle.center (circle.center + delta) ≤ 1) ∨
         (0 ≤ root2 ⟨c.center, c.radius + circle.radius⟩ circle.center (circle.center + delta) ∧
          root2 ⟨c.center, c.radius + circle.radius⟩ circle.center
            (circle.center + delta) ≤ 1)))) ∧
    ((c.sweep circle delta).hit = true →
      (c.sweep circle delta).TimeInUnit ∧
      (c.sweep circle delta).time =
        if 0 ≤ root1 ⟨c.center, c.radius + circle.radius⟩ circle.center
              (circle.center + delta) ∧
            root1 ⟨c.center, c.radius + circle.radius⟩ circle.center
              (circle.center + delta) ≤ 1
        then root1 ⟨c.center, c.radius + circle.radius⟩ circle.center (circle.center + delta)
        else root2 ⟨c.center, c.radius + circle.radius⟩ circle.center
          (circle.center + delta)) := by
  have hs : c.sweep circle delta =
      (Circle.mk c.center (c.radius + circle.radius)).intersects circle.center
        (circle.center + delta) := rfl
  rw [hs]
  rcases circle_intersects_cases ⟨c.center, c.radius + circle.radius⟩ circle.center
      (circle.center + delta) with ⟨hd, h1, he⟩ | ⟨hd, h1, h2, he⟩ | ⟨hno, he⟩
  · rw [he]
    refine ⟨⟨fun _ => ⟨hd, Or.inl h1⟩, fun _ => rfl⟩, fun _ => ⟨F32.eq_fin_of_in_unit h1, ?_⟩⟩
    rw [if_pos h1]; rfl
  · rw [he]
    refine ⟨⟨fun _ => ⟨hd, Or.inr h2⟩, fun _ => rfl⟩, fun _ => ⟨F32.eq_fin_of_in_unit h2, ?_⟩⟩
    rw [if_neg h1]; rfl
  · rw [he]
    refine ⟨⟨fun h => by simp [Hit.miss] at h, ?_⟩, fun h => by simp [Hit.miss] at h⟩
    rintro ⟨hd, h12⟩
    exfalso
    rcases hno with hnd | ⟨hn1, hn2⟩
    · exact hnd hd
    · rcases h12 with h | h
      · exact hn1 h
      · exact hn2 h

/-- C7 (witness): static circle `(0,0)` of radius `1/2`, moving circle of radius
`1/2` from `(-5,0)` by `(10,0)`: the first computed root is `0.4` rounded to
binary32, and it is the returned time. -/
theorem circle_sweep_first_root_witness :
    ((Circle.mk ⟨0, 0⟩ (fin (1 / 2))).sweep (Circle.mk ⟨fin (-5), 0⟩ (fin (1 / 2)))
      ⟨fin 10, 0⟩).hit = true ∧
    root1 ⟨⟨0, 0⟩, fin (1 / 2) + fin (1 / 2)⟩ ⟨fin (-5), 0⟩
      ((⟨fin (-5), 0⟩ : Vec2) + ⟨fin 10, 0⟩) = F32.round (2 / 5) ∧
    ((Circle.mk ⟨0, 0⟩ (fin (1 / 2))).sweep (Circle.mk ⟨fin (-5), 0⟩ (fin (1 / 2)))
      ⟨fin 10, 0⟩).TimeInUnit :=
  ⟨by decide!, by decide!,
    ((circle_sweep_first_root (Circle.mk ⟨0, 0⟩ (fin (1 / 2)))
      (Circle.mk ⟨fin (-5), 0⟩ (fin (1 / 2))) ⟨fin 10, 0⟩).2 (by decide!)).1⟩

/-- C9 (counterexample): circle centre `(0,0)`, radius `1`, segment from
`(1 - 2^-24, 0)` to `(-5/8, 0)`; both endpoints are strictly inside the circle.
The computed `c = dot(direction, direction) - radius*radius` is `-2^-23`, the
term `4*a*c` is lost in the rounding of the discriminant's square root, the
first root is `0`, and a hit at time `0` is returned. -/
theorem segment_inside_circle_hits :
    F32.IsBinary32 (16777215 / 16777216) ∧
    distSqExact ⟨fin (16777215 / 16777216), 0⟩ (Circle.mk ⟨0, 0⟩ 1).center <
      (Circle.mk ⟨0, 0⟩ 1).radius.toRat ^ 2 ∧
    distSqExact ⟨fin (-5 / 8), 0⟩ (Circle.mk ⟨0, 0⟩ 1).center <
      (Circle.mk ⟨0, 0⟩ 1).radius.toRat ^ 2 ∧
    root1 (Circle.mk ⟨0, 0⟩ 1) ⟨fin (16777215 / 16777216), 0⟩ ⟨fin (-5 / 8), 0⟩ = 0 ∧
    (Circle.mk ⟨0, 0⟩ 1).intersects ⟨fin (16777215 / 16777216), 0⟩ ⟨fin (-5 / 8), 0⟩ =
      ⟨true, 0, ⟨fin (16777215 / 16777216), 0⟩, ⟨1, 0⟩⟩ := by
  decide!

/-- C9 (amended): `Circle::intersects` has no "already inside" branch: it
returns a hit only at a computed root that lies in `[0, 1]`, and it returns
`hit = false` whenever the computed roots satisfy `t1 < 0` and `t2 > 1`, which
are the signs of the exact roots for a segment with both endpoints strictly
inside the circle. -/
theorem segment_inside_misses_on_computed_roots (c : Circle) (start end_ : Vec2)
    (h1 : root1 c start end_ < 0) (h2 : root2 c start end_ > 1) :
    (c.intersects start end_).hit = false ∧
    ∀ (s e : Vec2), (c.intersects s e).hit = true →
      (0 ≤ root1 c s e ∧ root1 c s e ≤ 1 ∧ (c.intersects s e).time = root1 c s e) ∨
      (0 ≤ root2 c s e ∧ root2 c s e ≤ 1 ∧ (c.intersects s e).time = root2 c s e) := by
  constructor
  · rcases circle_intersects_cases c start end_ with ⟨-, h, -⟩ | ⟨-, -, h, -⟩ | ⟨-, he⟩
    · exact absurd h1 (F32.not_lt_of_le h.1)
    · exact absurd h2 (F32.not_lt_of_le h.2)
    · rw [he]; rfl
  · intro s e h
    rcases circle_intersects_cases c s e with ⟨-, hr, he⟩ | ⟨-, -, hr, he⟩ | ⟨-, he⟩
    · left; exact ⟨hr.1, hr.2, by rw [he]; rfl⟩
    · right; exact ⟨hr.1, hr.2, by rw [he]; rfl⟩
    · rw [he] at h; simp [Hit.miss] at h

/-- C9 (witness): circle `(0,0)` of radius `1` and the segment from `(-1/2,0)` to
`(1/2,0)`; the computed roots are `-1/2` and `3/2`. -/
theorem segment_inside_misses_on_computed_roots_witness :
    root1 (Circle.mk ⟨0, 0⟩ 1) ⟨fin (-1 / 2), 0⟩ ⟨fin (1 / 2), 0⟩ = fin (-1 / 2) ∧
    root2 (Circle.mk ⟨0, 0⟩ 1) ⟨fin (-1 / 2), 0⟩ ⟨fin (1 / 2), 0⟩ = fin (3 / 2) ∧
    ((Circle.mk ⟨0, 0⟩ 1).intersects ⟨fin (-1 / 2), 0⟩ ⟨fin (1 / 2), 0⟩).hit = false :=
  ⟨by decide!, by decide!,
    (segment_inside_misses_on_computed_roots (Circle.mk ⟨0, 0⟩ 1) ⟨fin (-1 / 2), 0⟩
      ⟨fin (1 / 2), 0⟩ (by decide!) (by decide!)).1⟩

end Circle

end xr
namespace xr

open F32

/-! ## Claims about `AABB::sweep(circle, delta)` -/

namespace AABB

/-- C2 (counterexample): box `(0,0)` of size `(2,2)`, circle `(-3,-3/2)` of
radius `1`, displacement `(4,0)`.  The padded-box test hits at time `1/4` at
`(-2,-3/2)`, beyond the half-extent on both axes; the circle round the corner
`(-1,-1)` is hit on the same segment at the later time `2378117/8388608`;
`sweep` returns the padded-box hit, which is not the corner-circle hit, and the
padded-box time is not later than the returned time. -/
theorem sweep_circle_corner_returns_padded_hit :
    ((AABB.mk ⟨0, 0⟩ ⟨fin 2, fin 2⟩).paddedBy (Circle.mk ⟨fin (-3), fin (-3 / 2)⟩ 1)).intersects
        ⟨fin (-3), fin (-3 / 2)⟩ ((⟨fin (-3), fin (-3 / 2)⟩ : Vec2) + ⟨fin 4, 0⟩) =
      ⟨true, fin (1 / 4), ⟨fin (-2), fin (-3 / 2)⟩, ⟨fin (-1), 0⟩⟩ ∧
    (fin (-2) - 0 : F32) < -(AABB.mk ⟨0, 0⟩ ⟨fin 2, fin 2⟩).size.x / fin 2 ∧
    (fin (-3 / 2) - 0 : F32) < -(AABB.mk ⟨0, 0⟩ ⟨fin 2, fin 2⟩).size.y / fin 2 ∧
    (AABB.mk ⟨0, 0⟩ ⟨fin 2, fin 2⟩).cornerNear ((⟨fin (-2), fin (-3 / 2)⟩ : Vec2) - ⟨0, 0⟩) =
      ⟨fin (-1), fin (-1)⟩ ∧
    ((AABB.mk ⟨0, 0⟩ ⟨fin 2, fin 2⟩).cornerCircle (Circle.mk ⟨fin (-3), fin (-3 / 2)⟩ 1)
        ⟨fin (-1), fin (-1)⟩).intersects ⟨fin (-3), fin (-3 / 2)⟩
        ((⟨fin (-3), fin (-3 / 2)⟩ : Vec2) + ⟨fin 4, 0⟩) =
      ⟨true, fin (2378117 / 8388608), ⟨fin (-3913339 / 2097152), fin (-3 / 2)⟩,
        ⟨fin (-1816187 / 2097152), fin (-1 / 2)⟩⟩ ∧
    (AABB.mk ⟨0, 0⟩ ⟨fin 2, fin 2⟩).sweepCircle (Circle.mk ⟨fin (-3), fin (-3 / 2)⟩ 1)
        ⟨fin 4, 0⟩ = ⟨true, fin (1 / 4), ⟨fin (-2), fin (-3 / 2)⟩, ⟨fin (-1), 0⟩⟩ ∧
    (AABB.mk ⟨0, 0⟩ ⟨fin 2, fin 2⟩).sweepCircle (Circle.mk ⟨fin (-3), fin (-3 / 2)⟩ 1)
        ⟨fin 4, 0⟩ ≠
      ((AABB.mk ⟨0, 0⟩ ⟨fin 2, fin 2⟩).cornerCircle (Circle.mk ⟨fin (-3), fin (-3 / 2)⟩ 1)
        ⟨fin (-1), fin (-1)⟩).intersects ⟨fin (-3), fin (-3 / 2)⟩
        ((⟨fin (-3), fin (-3 / 2)⟩ : Vec2) + ⟨fin 4, 0⟩) ∧
    ¬ (((AABB.mk ⟨0, 0⟩ ⟨fin 2, fin 2⟩).sweepCircle (Circle.mk ⟨fin (-3), fin (-3 / 2)⟩ 1)
        ⟨fin 4, 0⟩).time <
      (((AABB.mk ⟨0, 0⟩ ⟨fin 2, fin 2⟩).paddedBy
        (Circle.mk ⟨fin (-3), fin (-3 / 2)⟩ 1)).intersects ⟨fin (-3), fin (-3 / 2)⟩
        ((⟨fin (-3), fin (-3 / 2)⟩ : Vec2) + ⟨fin 4, 0⟩)).time) := by
  decide!

/-- C2 (amended): for every box, circle and displacement whose padded-box hit
point, taken relative to the box centre, lies beyond the half-extent of the
original box on both axes (the comparisons `p.x < -sx/2`, `p.x > sx/2`,
`p.y < -sy/2`, `p.y > sy/2` of the code) and for which `Circle::intersects` of
the circle of the same radius centred at that corner of the original box hits
on the same segment, `sweep` returns a hit, and the Hit returned is one of these
two hits: the padded-box hit or that corner-circle hit. -/
theorem sweep_circle_corner_one_of (box : AABB) (circle : Circle) (delta : Vec2)
    (hhit : ((box.paddedBy circle).intersects circle.center
      (circle.center + delta)).hit = true)
    (hx : ((box.paddedBy circle).intersects circle.center (circle.center + delta)).point.x
          - box.center.x < -box.size.x / F32.fin 2 ∨
        ((box.paddedBy circle).intersects circle.center (circle.center + delta)).point.x
          - box.center.x > box.size.x / F32.fin 2)
    (hy : ((box.paddedBy circle).intersects circle.center (circle.center + delta)).point.y
          - box.center.y < -box.size.y / F32.fin 2 ∨
        ((box.paddedBy circle).intersects circle.center (circle.center + delta)).point.y
          - box.center.y > box.size.y / F32.fin 2)
    (hcorner : ((box.cornerCircle circle (box.cornerNear
      (((box.paddedBy circle).intersects circle.center (circle.center + delta)).point
        - box.center))).intersects circle.center (circle.center + delta)).hit = true) :
    (box.sweepCircle circle delta).hit = true ∧
    (box.sweepCircle circle delta =
        (box.paddedBy circle).intersects circle.center (circle.center + delta) ∨
      box.sweepCircle circle delta =
        (box.cornerCircle circle (box.cornerNear
          (((box.paddedBy circle).intersects circle.center (circle.center + delta)).point
            - box.center))).intersects circle.center (circle.center + delta)) := by
  rw [sweepCircle_of_corner_region box circle delta hx hy]
  rcases cornerResult_cases box circle delta
      ((box.paddedBy circle).intersects circle.center (circle.center + delta))
      (box.cornerNear (((box.paddedBy circle).intersects circle.center
        (circle.center + delta)).point - box.center)) with ⟨-, h⟩ | ⟨-, h⟩
  · rw [h]; exact ⟨hhit, Or.inl rfl⟩
  · rw [h]; exact ⟨hcorner, Or.inr rfl⟩

/-- C2 (witness): box `(0,0)` of size `(2,2)`, circle `(-3,-3/2)` of radius `1`,
displacement `(4,0)`. -/
theorem sweep_circle_corner_one_of_witness :
    ((AABB.mk ⟨0, 0⟩ ⟨fin 2, fin 2⟩).paddedBy (Circle.mk ⟨fin (-3), fin (-3 / 2)⟩ 1)).intersects
        (Circle.mk ⟨fin (-3), fin (-3 / 2)⟩ 1).center
        ((Circle.mk ⟨fin (-3), fin (-3 / 2)⟩ 1).center + ⟨fin 4, 0⟩) =
      ⟨true, fin (1 / 4), ⟨fin (-2), fin (-3 / 2)⟩, ⟨fin (-1), 0⟩⟩ ∧
    ((AABB.mk ⟨0, 0⟩ ⟨fin 2, fin 2⟩).sweepCircle (Circle.mk ⟨fin (-3), fin (-3 / 2)⟩ 1)
        ⟨fin 4, 0⟩ =
      ((AABB.mk ⟨0, 0⟩ ⟨fin 2, fin 2⟩).paddedBy (Circle.mk ⟨fin (-3), fin (-3 / 2)⟩ 1)).intersects
        (Circle.mk ⟨fin (-3), fin (-3 / 2)⟩ 1).center
        ((Circle.mk ⟨fin (-3), fin (-3 / 2)⟩ 1).center + ⟨fin 4, 0⟩) ∨
     (AABB.mk ⟨0, 0⟩ ⟨fin 2, fin 2⟩).sweepCircle (Circle.mk ⟨fin (-3), fin (-3 / 2)⟩ 1)
        ⟨fin 4, 0⟩ =
      ((AABB.mk ⟨0, 0⟩ ⟨fin 2, fin 2⟩).cornerCircle (Circle.mk ⟨fin (-3), fin (-3 / 2)⟩ 1)
        ((AABB.mk ⟨0, 0⟩ ⟨fin 2, fin 2⟩).cornerNear
          ((((AABB.mk ⟨0, 0⟩ ⟨fin 2, fin 2⟩).paddedBy
            (Circle.mk ⟨fin (-3), fin (-3 / 2)⟩ 1)).intersects
            (Circle.mk ⟨fin (-3), fin (-3 / 2)⟩ 1).center
            ((Circle.mk ⟨fin (-3), fin (-3 / 2)⟩ 1).center + ⟨fin 4, 0⟩)).point
            - (AABB.mk ⟨0, 0⟩ ⟨fin 2, fin 2⟩).center))).intersects
        (Circle.mk ⟨fin (-3), fin (-3 / 2)⟩ 1).center
        ((Circle.mk ⟨fin (-3), fin (-3 / 2)⟩ 1).center + ⟨fin 4, 0⟩)) :=
  ⟨by decide!,
    (sweep_circle_corner_one_of (AABB.mk ⟨0, 0⟩ ⟨fin 2, fin 2⟩)
      (Circle.mk ⟨fin (-3), fin (-3 / 2)⟩ 1) ⟨fin 4, 0⟩ (by decide!) (Or.inl (by decide!))
      (Or.inl (by decide!)) (by decide!)).2⟩

/-- C12 (counterexample): box `(0,0)` of size `(2,2)`, circle `(-3,-3)` of radius
`1`, displacement `(4, 8388561/1048576)` (a binary32 value just below `8`).
The padded-box test hits the left side at time `1/4`; the hit point is in the
corner region, the circle round the corner `(-1,-1)` is hit at the computed time
`8388607/33554432`, one unit in the last place below `1/4`, and `sweep` returns
that corner-circle Hit, not the padded-box Hit. -/
theorem sweep_circle_returns_earlier_corner_hit :
    F32.IsBinary32 (8388561 / 1048576) ∧
    ((AABB.mk ⟨0, 0⟩ ⟨fin 2, fin 2⟩).paddedBy (Circle.mk ⟨fin (-3), fin (-3)⟩ 1)).intersects
        ⟨fin (-3), fin (-3)⟩
        ((⟨fin (-3), fin (-3)⟩ : Vec2) + ⟨fin 4, fin (8388561 / 1048576)⟩) =
      ⟨true, fin (1 / 4), ⟨fin (-2), fin (-4194351 / 4194304)⟩, ⟨fin (-1), 0⟩⟩ ∧
    (AABB.mk ⟨0, 0⟩ ⟨fin 2, fin 2⟩).sweepCircle (Circle.mk ⟨fin (-3), fin (-3)⟩ 1)
        ⟨fin 4, fin (8388561 / 1048576)⟩ =
      ⟨true, fin (8388607 / 33554432), ⟨fin (-2), fin (-262147 / 262144)⟩,
        ⟨fin (-1), fin (-3 / 262144)⟩⟩ ∧
    (AABB.mk ⟨0, 0⟩ ⟨fin 2, fin 2⟩).sweepCircle (Circle.mk ⟨fin (-3), fin (-3)⟩ 1)
        ⟨fin 4, fin (8388561 / 1048576)⟩ ≠
      ((AABB.mk ⟨0, 0⟩ ⟨fin 2, fin 2⟩).paddedBy (Circle.mk ⟨fin (-3), fin (-3)⟩ 1)).intersects
        ⟨fin (-3), fin (-3)⟩
        ((⟨fin (-3), fin (-3)⟩ : Vec2) + ⟨fin 4, fin (8388561 / 1048576)⟩) := by
  decide!

/-- C12 (amended): when the padded-box segment test returns a hit, `sweep`
returns exactly that Hit unless the circle round one of the four corners of the
original box is hit on the same segment at a computed time strictly smaller
than the padded-box time, in which case `sweep` may return that corner-circle
Hit instead; when the circle's centre starts strictly inside the padded box
(padded-box time `0`), `sweep` returns the padded-box Hit. -/
theorem sweep_circle_padded_or_earlier_corner (box : AABB) (circle : Circle) (delta : Vec2)
    (hhit : ((box.paddedBy circle).intersects circle.center
      (circle.center + delta)).hit = true) :
    (box.sweepCircle circle delta =
        (box.paddedBy circle).intersects circle.center (circle.center + delta) ∨
      ∃ corner : Vec2,
        (corner.x = -box.size.x / F32.fin 2 ∨ corner.x = box.size.x / F32.fin 2) ∧
        (corner.y = -box.size.y / F32.fin 2 ∨ corner.y = box.size.y / F32.fin 2) ∧
        ((box.cornerCircle circle corner).intersects circle.center
          (circle.center + delta)).hit = true ∧
        ((box.cornerCircle circle corner).intersects circle.center
          (circle.center + delta)).time <
          ((box.paddedBy circle).intersects circle.center (circle.center + delta)).time ∧
        box.sweepCircle circle delta =
          (box.cornerCircle circle corner).intersects circle.center (circle.center + delta)) ∧
    ((box.paddedBy circle).contains circle.center →
      box.sweepCircle circle delta =
        (box.paddedBy circle).intersects circle.center (circle.center + delta)) := by
  have key : box.sweepCircle circle delta =
        (box.paddedBy circle).intersects circle.center (circle.center + delta) ∨
      ∃ corner : Vec2,
        (corner.x = -box.size.x / F32.fin 2 ∨ corner.x = box.size.x / F32.fin 2) ∧
        (corner.y = -box.size.y / F32.fin 2 ∨ corner.y = box.size.y / F32.fin 2) ∧
        ((box.cornerCircle circle corner).intersects circle.center
          (circle.center + delta)).hit = true ∧
        ((box.cornerCircle circle corner).intersects circle.center
          (circle.center + delta)).time <
          ((box.paddedBy circle).intersects circle.center (circle.center + delta)).time ∧
        box.sweepCircle circle delta =
          (box.cornerCircle circle corner).intersects circle.center (circle.center + delta) := by
    rcases sweepCircle_cases box circle delta with he | ⟨corner, hcx, hcy, he⟩
    · exact Or.inl he
    · rcases cornerResult_cases box circle delta
        ((box.paddedBy circle).intersects circle.center (circle.center + delta)) corner with
        ⟨-, hc⟩ | ⟨hlt, hc⟩
      · exact Or.inl (he.trans hc)
      · right
        refine ⟨corner, hcx, hcy, ?_, ?_, he.trans hc⟩
        · rcases hlt with ⟨h1, -⟩ | ⟨h1, -, -⟩
          · exact h1
          · exact h1
        · rcases hlt with ⟨-, h2⟩ | ⟨-, -, h3⟩
          · rw [hhit] at h2; cases h2
          · exact h3
  refine ⟨key, fun hin => ?_⟩
  rcases key with he | ⟨corner, -, -, hch, hlt, -⟩
  · exact he
  · exfalso
    rw [intersects_of_contains _ hin] at hlt
    obtain ⟨t, ht, ht0, -⟩ := Circle.circle_intersects_time hch
    rw [ht] at hlt
    simp only [Hit.inside, F32.zero_def, F32.fin_lt_fin] at hlt
    exact absurd hlt (not_lt.mpr ht0)

/-- C12 (witness): box `(0,0)` of size `(2,2)`, circle `(-5,0)` of radius `1`,
displacement `(10,0)`: the padded box `(0,0)` of size `(4,4)` is hit on its left
side and that Hit is returned. -/
theorem sweep_circle_padded_or_earlier_corner_witness :
    ((AABB.mk ⟨0, 0⟩ ⟨fin 2, fin 2⟩).paddedBy (Circle.mk ⟨fin (-5), 0⟩ 1)).intersects
        (Circle.mk ⟨fin (-5), 0⟩ 1).center ((Circle.mk ⟨fin (-5), 0⟩ 1).center + ⟨fin 10, 0⟩) =
      ⟨true, F32.round (3 / 10), ⟨fin (-2), 0⟩, ⟨fin (-1), 0⟩⟩ ∧
    (AABB.mk ⟨0, 0⟩ ⟨fin 2, fin 2⟩).sweepCircle (Circle.mk ⟨fin (-5), 0⟩ 1) ⟨fin 10, 0⟩ =
      ⟨true, F32.round (3 / 10), ⟨fin (-2), 0⟩, ⟨fin (-1), 0⟩⟩ ∧
    (((AABB.mk ⟨0, 0⟩ ⟨fin 2, fin 2⟩).paddedBy (Circle.mk ⟨fin (-5), 0⟩ 1)).contains
        (Circle.mk ⟨fin (-5), 0⟩ 1).center →
      (AABB.mk ⟨0, 0⟩ ⟨fin 2, fin 2⟩).sweepCircle (Circle.mk ⟨fin (-5), 0⟩ 1) ⟨fin 10, 0⟩ =
        ((AABB.mk ⟨0, 0⟩ ⟨fin 2, fin 2⟩).paddedBy (Circle.mk ⟨fin (-5), 0⟩ 1)).intersects
          (Circle.mk ⟨fin (-5), 0⟩ 1).center
          ((Circle.mk ⟨fin (-5), 0⟩ 1).center + ⟨fin 10, 0⟩)) :=
  ⟨by decide!, by decide!,
    (sweep_circle_padded_or_earlier_corner (AABB.mk ⟨0, 0⟩ ⟨fin 2, fin 2⟩)
      (Circle.mk ⟨fin (-5), 0⟩ 1) ⟨fin 10, 0⟩ (by decide!)).2⟩

end AABB

end xr
